import Mathlib

/-!
Verification development for the ophta-flow biometry extraction engine
(`src/backend/app/parsers/iol700.py` and `src/backend/app/excel_handler.py`).

The Python code is shallowly embedded: PDF cells are `Option String`
(`None` or text), tables are lists of rows of cells, records (Python
dicts with insertion order) are association lists, and the regular
expressions used by the parser are modeled by dedicated search functions
whose semantics match `re.search` on the concrete pattern shapes the
code uses.  Python `str.upper` is modeled on the ASCII range (the only
tokens compared after uppercasing are ASCII), and `float(...)` is
modeled on its decimal/exponent grammar (numeric-separator underscores
and inf/nan do not occur in the digit-class tokens the parser captures;
inf/nan are still recognised by the parse test).
-/

namespace OphtaFlow

/-! ## Python string primitives -/

/-- Python `\s` (ASCII whitespace as used by `re` on these inputs). -/
def pyWsChar (c : Char) : Bool :=
  c = ' ' ∨ c = '\t' ∨ c = '\n' ∨ c = '\r' ∨ c = '\x0b' ∨ c = '\x0c'

/-- Character class `[\d,\.]` from the value-capture regexes. -/
def numTokChar (c : Char) : Bool :=
  c.isDigit ∨ c = ',' ∨ c = '.'

/-- Substring test on char lists (Python `needle in haystack`). -/
def listContains (needle : List Char) : List Char → Bool
  | [] => needle.isEmpty
  | c :: rest => needle.isPrefixOf (c :: rest) || listContains needle rest

/-- Python `needle in haystack` for strings. -/
def strIn (needle hay : String) : Bool :=
  listContains needle.data hay.data

/-- Python `str.upper()` (ASCII case mapping; the uppercased text is only
compared against ASCII tokens such as "OD", "OS", "AL:"). -/
def pyUpper (s : String) : String :=
  ⟨s.data.map Char.toUpper⟩

/-- Python `str.strip()` with no argument. -/
def pyTrim (s : String) : String :=
  ⟨(s.data.dropWhile pyWsChar).reverse.dropWhile pyWsChar |>.reverse⟩

/-- Left-to-right non-overlapping replacement on char lists, with
explicit fuel for structural recursion (the fuel is the input length,
which never runs out since every step consumes at least one char). -/
def replaceListAux (pat rep : List Char) : Nat → List Char → List Char
  | 0, s => s
  | _, [] => []
  | fuel + 1, c :: rest =>
    if pat ≠ [] ∧ pat.isPrefixOf (c :: rest) then
      rep ++ replaceListAux pat rep fuel ((c :: rest).drop pat.length)
    else
      c :: replaceListAux pat rep fuel rest

def replaceList (pat rep s : List Char) : List Char :=
  replaceListAux pat rep s.length s

/-- Python `str.replace(pat, rep)` (left-to-right, non-overlapping). -/
def pyReplace (s pat rep : String) : String :=
  ⟨replaceList pat.data rep.data s.data⟩

/-- Python `str.split(sep)` for a single-character separator. -/
def splitOnChar (sep : Char) : List Char → List (List Char)
  | [] => [[]]
  | c :: rest =>
    match splitOnChar sep rest with
    | g :: gs => if c = sep then [] :: g :: gs else (c :: g) :: gs
    | [] => [[c]]

/-- Python `" ".join(xs)`. -/
def joinSpace (xs : List String) : String :=
  String.intercalate " " xs

/-! ## Python float parsing (`float(str)`) -/

/-- Digits of a char list as a natural number (chars assumed decimal). -/
def natOfDigits (cs : List Char) : Nat :=
  cs.foldl (fun n c => 10 * n + (c.toNat - '0'.toNat)) 0

/-- Mantissa grammar of CPython `float`: `D+ [. D*]` or `. D+`.
Returns (numerator over fractional digits, number of fractional digits). -/
def parseMantissa (cs : List Char) : Option (Nat × Nat) :=
  let intPart := cs.takeWhile Char.isDigit
  let rest := cs.dropWhile Char.isDigit
  match rest with
  | [] => if intPart.isEmpty then none else some (natOfDigits intPart, 0)
  | '.' :: frac =>
    let fracPart := frac.takeWhile Char.isDigit
    let rest2 := frac.dropWhile Char.isDigit
    if rest2.isEmpty ∧ ¬ (intPart.isEmpty ∧ fracPart.isEmpty) then
      some (natOfDigits (intPart ++ fracPart), fracPart.length)
    else none
  | _ => none

/-- Exponent suffix `e|E [+|-] D+` of CPython `float`, if present. -/
def splitExponent (cs : List Char) : List Char × Option Int :=
  match cs.span (fun c => ¬ (c = 'e' ∨ c = 'E')) with
  | (mant, []) => (mant, none)
  | (mant, _ :: expPart) =>
    let (sgn, digits) :=
      match expPart with
      | '+' :: ds => ((1 : Int), ds)
      | '-' :: ds => ((-1 : Int), ds)
      | ds => ((1 : Int), ds)
    if digits ≠ [] ∧ digits.all Char.isDigit then
      (mant, some (sgn * (natOfDigits digits : Int)))
    else (mant, none)

/-- Finite-value grammar of CPython `float(str)`: optional surrounding
whitespace, optional sign, mantissa, optional exponent.  Returns the
exact value as a (numerator, positive denominator) pair; the
represented rational is `mkRat num den`.  (Kept away from `Rat`
arithmetic so that concrete runs reduce in the kernel.) -/
def pyFloatVal (s : String) : Option (Int × Nat) :=
  let cs := (s.data.dropWhile pyWsChar).reverse.dropWhile pyWsChar |>.reverse
  let (sgn, body) :=
    match cs with
    | '+' :: rest => ((1 : Int), rest)
    | '-' :: rest => ((-1 : Int), rest)
    | rest => ((1 : Int), rest)
  match splitExponent body with
  | (mant, expOpt) =>
    let expOk : Bool := (body.any (fun c => c = 'e' ∨ c = 'E')) → expOpt.isSome
    match parseMantissa mant with
    | some (num, scale) =>
      if expOk then
        let e := expOpt.getD 0
        if 0 ≤ e then some (sgn * ((num * 10 ^ e.toNat : Nat) : Int), 10 ^ scale)
        else some (sgn * (num : Int), 10 ^ scale * 10 ^ (-e).toNat)
      else none
    | none => none

/-- Comparison of two (numerator, denominator) values by
cross-multiplication (valid for positive denominators). -/
def numLt (x y : Int × Nat) : Bool :=
  decide (x.1 * (y.2 : Int) < y.1 * (x.2 : Int))

/-- Python `float(s)` succeeds: the finite grammar above, or a signed
`inf`/`infinity`/`nan` (case-insensitive). -/
def pyFloatParses (s : String) : Bool :=
  (pyFloatVal s).isSome ||
    (let t := (pyTrim s).data.map Char.toLower
     let u := match t with
       | '+' :: rest => rest
       | '-' :: rest => rest
       | rest => rest
     u = "inf".data ∨ u = "infinity".data ∨ u = "nan".data)

/-- `IOL700Parser._is_numeric`: `float(value.replace(",", "."))` succeeds. -/
def isNumeric (value : String) : Bool :=
  pyFloatParses (pyReplace value "," ".")

/-! ## Records: Python dicts with insertion order -/

/-- An eye record: insertion-ordered mapping from field name to value. -/
abbrev Rec := List (String × String)

/-- Python `key in dict`. -/
def recContains (r : Rec) (k : String) : Bool :=
  r.any (fun p => p.1 == k)

/-- Python `dict.get(key)` (`None` when absent). -/
def recFind (r : Rec) (k : String) : Option String :=
  (r.find? (fun p => p.1 == k)).map (·.2)

/-- Python `d[k] = v`: replace in place if present, else append. -/
def recSet (r : Rec) (k v : String) : Rec :=
  if recContains r k then r.map (fun p => if p.1 == k then (k, v) else p)
  else r ++ [(k, v)]

/-- The parser's guarded write `if k not in d: d[k] = v`. -/
def recSetIfAbsent (r : Rec) (k v : String) : Rec :=
  if recContains r k then r else r ++ [(k, v)]

/-- A PDF table cell as `pdfplumber` yields it: `None` or a string. -/
abbrev Cell := Option String

/-- A table row / table. -/
abbrev Row := List Cell
abbrev Table := List Row

/-- Python truthiness of a cell: `None` and `""` are falsy. -/
def cellTruthy (c : Cell) : Bool :=
  match c with
  | none => false
  | some s => s ≠ ""

/-- Python `str(cell) if cell else ""` over an optional cell. -/
def cellStr (c : Cell) : String :=
  c.getD ""

/-- Concatenated row text: `" ".join(str(cell) if cell else "" ...)`. -/
def rowText (row : Row) : String :=
  joinSpace (row.map cellStr)

/-! ## Regex searchers used by the parser

Each function models `re.search` of one concrete pattern shape.  The
searched position advances one character at a time, exactly as
`re.search` tries successive start positions; at each candidate start
the continuation is deterministic because the character classes of
adjacent pattern pieces are disjoint (so backtracking cannot produce a
different result). -/

/-- Continuation of pattern 1 after the label: `\s*[:=]\s*([\d,\.]+)`. -/
def afterLabelColonEq (s : List Char) : Option (List Char) :=
  match s.dropWhile pyWsChar with
  | [] => none
  | c :: rest =>
    if c = ':' ∨ c = '=' then
      let run := (rest.dropWhile pyWsChar).takeWhile numTokChar
      if run.isEmpty then none else some run
    else none

/-- `re.search(rf"LABEL\s*[:=]\s*([\d,\.]+)", text)`: leftmost occurrence
of the label whose continuation matches; capture group 1. -/
def searchLabelColonEq (label : List Char) : List Char → Option (List Char)
  | [] => none
  | c :: rest =>
    match (if label.isPrefixOf (c :: rest) then afterLabelColonEq ((c :: rest).drop label.length) else none) with
    | some run => some run
    | none => searchLabelColonEq label rest

/-- `re.search(rf"LABEL.*?([\d,\.]+)", text, re.DOTALL)`: leftmost label
occurrence followed (lazily) by a number-like token; capture group 1. -/
def searchLabelLazyNum (label : List Char) : List Char → Option (List Char)
  | [] => none
  | c :: rest =>
    match
      (if label.isPrefixOf (c :: rest) then
        let run := (((c :: rest).drop label.length).dropWhile (fun ch => ¬ numTokChar ch)).takeWhile numTokChar
        if run.isEmpty then none else some run
      else none) with
    | some run => some run
    | none => searchLabelLazyNum label rest

/-- `re.findall(r"[\d,\.]+", text)`: maximal runs of number-like chars. -/
def findNumRunsAux : List Char → List Char → List (List Char)
  | [], cur => if cur.isEmpty then [] else [cur.reverse]
  | c :: rest, cur =>
    if numTokChar c then findNumRunsAux rest (c :: cur)
    else if cur.isEmpty then findNumRunsAux rest []
    else cur.reverse :: findNumRunsAux rest []

def findNumRuns (s : List Char) : List (List Char) :=
  findNumRunsAux s []

/-- `re.search(r"AL:\s*([\d,\.]+)", text)` from the column-resolution
heuristic (label and colon adjacent). -/
def afterLiteral (s : List Char) : Option (List Char) :=
  let run := (s.dropWhile pyWsChar).takeWhile numTokChar
  if run.isEmpty then none else some run

def searchLiteralThenNum (lit : List Char) : List Char → Option (List Char)
  | [] => none
  | c :: rest =>
    match (if lit.isPrefixOf (c :: rest) then afterLiteral ((c :: rest).drop lit.length) else none) with
    | some run => some run
    | none => searchLiteralThenNum lit rest

/-- `re.search(r"@\s*(\d+)\s*°", text)`: axis with degree mark. -/
def searchAtDigitsDeg : List Char → Option (List Char)
  | [] => none
  | c :: rest =>
    match
      (if c = '@' then
        let digits := (rest.dropWhile pyWsChar).takeWhile Char.isDigit
        if digits.isEmpty then none
        else
          match ((rest.dropWhile pyWsChar).drop digits.length).dropWhile pyWsChar with
          | '°' :: _ => some digits
          | _ => none
      else none) with
    | some digits => some digits
    | none => searchAtDigitsDeg rest

/-- `re.search(r"@\s*(\d+)", text)`: axis without degree mark. -/
def searchAtDigits : List Char → Option (List Char)
  | [] => none
  | c :: rest =>
    match
      (if c = '@' then
        let digits := (rest.dropWhile pyWsChar).takeWhile Char.isDigit
        if digits.isEmpty then none else some digits
      else none) with
    | some digits => some digits
    | none => searchAtDigits rest

/-! ## `IOL700Parser._extract_value_from_text` -/

/-- The unit/decimal cleanup applied to a captured value:
`strip`, remove `mm`, `µm`, `µ`, `D`, `°`, `strip`, comma to dot. -/
def cleanCaptured (g : String) : String :=
  let val := pyTrim g
  let val := pyTrim (pyReplace (pyReplace (pyReplace (pyReplace (pyReplace val "mm" "") "µm" "") "µ" "") "D" "") "°" "")
  pyReplace val "," "."

/-- Pattern 1 of `_extract_value_from_text`: strict `label [:=] value`
capture on the uppercased text, accepted only if numeric. -/
def evtPattern1 (text label : String) : Option String :=
  match searchLabelColonEq label.data (pyUpper text).data with
  | some g =>
    let val := cleanCaptured ⟨g⟩
    if isNumeric val then some val else none
  | none => none

/-- Pattern 2 of `_extract_value_from_text`: lazy `label ... value`
capture on the uppercased text, accepted only if numeric. -/
def evtPattern2 (text label : String) : Option String :=
  match searchLabelLazyNum label.data (pyUpper text).data with
  | some g =>
    let val := cleanCaptured ⟨g⟩
    if isNumeric val then some val else none
  | none => none

/-- Pattern 3 of `_extract_value_from_text`: first number-like token of
the raw text that is numeric and lies strictly between 0.5 and 100. -/
def evtPattern3List (toks : List (List Char)) : Option String :=
  match toks with
  | [] => none
  | t :: rest =>
    if isNumeric (pyTrim (pyReplace ⟨t⟩ "," ".")) then
      match pyFloatVal (pyTrim (pyReplace ⟨t⟩ "," ".")) with
      | some q =>
        if numLt (1, 2) q && numLt q (100, 1) then some (pyTrim (pyReplace ⟨t⟩ "," "."))
        else evtPattern3List rest
      | none => evtPattern3List rest
    else evtPattern3List rest

def evtPattern3 (text : String) : Option String :=
  evtPattern3List (findNumRuns text.data)

/-- `IOL700Parser._extract_value_from_text`: the three strategies in
order, defaulting to `""`. -/
def extractValueFromText (text label : String) : String :=
  match evtPattern1 text label with
  | some v => v
  | none =>
    match evtPattern2 text label with
    | some v => v
    | none =>
      match evtPattern3 text with
      | some v => v
      | none => ""

/-! ## `IOL700Parser._extract_value_from_cell` -/

/-- Cleanup used by `_extract_value_from_cell`: strip, remove `mm`,
`D`, `°`, strip. -/
def cleanCellVal (s : String) : String :=
  pyTrim (pyReplace (pyReplace (pyReplace (pyTrim s) "mm" "") "D" "") "°" "")

/-- `IOL700Parser._extract_value_from_cell`: current cell, then the next
cell in the row, then the cell below; first numeric value wins. -/
def extractValueFromCell (row : Row) (colIdx : Nat) (table : Table) (rowIdx : Nat) : String :=
  let try1 :=
    if colIdx < row.length ∧ cellTruthy (row.getD colIdx none) then
      let val := cleanCellVal (cellStr (row.getD colIdx none))
      if isNumeric val then some val else none
    else none
  match try1 with
  | some v => v
  | none =>
    let try2 :=
      if colIdx + 1 < row.length ∧ cellTruthy (row.getD (colIdx + 1) none) then
        let val := cleanCellVal (cellStr (row.getD (colIdx + 1) none))
        if isNumeric val then some val else none
      else none
    match try2 with
    | some v => v
    | none =>
      let below := table.getD (rowIdx + 1) []
      if rowIdx + 1 < table.length ∧ colIdx < below.length ∧ cellTruthy (below.getD colIdx none) then
        let val := cleanCellVal (cellStr (below.getD colIdx none))
        if isNumeric val then val else ""
      else ""

/-! ## `IOL700Parser._extract_modele_implante` -/

/-- Axis extraction: `@ digits °` in the cell, then in the next cell,
then `@ digits` in the cell, then in the next cell. -/
def extractModeleImplante (cellText : String) (row : Row) (colIdx : Nat) : String :=
  match searchAtDigitsDeg cellText.data with
  | some g => ⟨g⟩
  | none =>
    let nextCell :=
      if colIdx + 1 < row.length ∧ cellTruthy (row.getD (colIdx + 1) none) then
        some (cellStr (row.getD (colIdx + 1) none))
      else none
    match nextCell.bind (fun t => searchAtDigitsDeg t.data) with
    | some g => ⟨g⟩
    | none =>
      match searchAtDigits cellText.data with
      | some g => ⟨g⟩
      | none =>
        match nextCell.bind (fun t => searchAtDigits t.data) with
        | some g => ⟨g⟩
        | none => ""

/-! ## `IOL700Parser._extract_from_tables`

The function walks every table, resolving a header row and per-eye
columns, then harvesting measurements; per-table state is the pair of
accumulators `(od_data, os_data)` threaded through all tables. -/

/-- Header detection (lines 165-177): first non-empty row whose
concatenated uppercased text contains "OD" or "OS". -/
def findHeaderAux : List (Nat × Row) → Option (Nat × Row)
  | [] => none
  | (i, row) :: rest =>
    if row.isEmpty then findHeaderAux rest
    else
      let rt := pyUpper (rowText row)
      if strIn "OD" rt ∨ strIn "OS" rt then some (i, row) else findHeaderAux rest

def findHeader (table : Table) : Option (Nat × Row) :=
  findHeaderAux table.enum

/-- Header-cell column scan (lines 180-193): a truthy cell containing
"OD" but not "OS" sets the OD column (first only); a truthy cell
containing "OS" enters the `elif` and sets the OS column (first only)
provided it does not also contain "OD". -/
def headerColScanAux : List (Nat × Cell) → Option Nat × Option Nat → Option Nat × Option Nat
  | [], st => st
  | (i, c) :: rest, (odc, osc) =>
    if ¬ cellTruthy c then headerColScanAux rest (odc, osc)
    else
      if strIn "OD" (pyUpper (cellStr c)) ∧ ¬ strIn "OS" (pyUpper (cellStr c)) ∧ odc = none then
        headerColScanAux rest (some i, osc)
      else if strIn "OS" (pyUpper (cellStr c)) ∧ osc = none then
        if ¬ strIn "OD" (pyUpper (cellStr c)) then headerColScanAux rest (odc, some i)
        else headerColScanAux rest (odc, osc)
      else headerColScanAux rest (odc, osc)

def headerColScan (row : Row) : Option Nat × Option Nat :=
  headerColScanAux row.enum (none, none)

/-- Positional column update shared by the disambiguation loops
(lines 220-227 and 236-243): left half may lower the OD column, right
half may raise the OS column. -/
def posColUpdate (colIdx halfLen : Nat) (st : Option Nat × Option Nat) : Option Nat × Option Nat :=
  let (odc, osc) := st
  if colIdx < halfLen then
    if (match odc with | none => true | some k => colIdx < k) then (some colIdx, osc) else st
  else
    if (match osc with | none => true | some _ => odc.getD 0 < colIdx) then (odc, some colIdx) else st

/-- First disambiguation pass over one check row (lines 205-229): cells
carrying an `AL:`-labeled parseable value adjust the columns. -/
def alCellStep (row : Row) (colIdx : Nat) (st : Option Nat × Option Nat) : Option Nat × Option Nat :=
  let cellVal := if colIdx < row.length ∧ cellTruthy (row.getD colIdx none) then cellStr (row.getD colIdx none) else ""
  let cellUpper := pyUpper cellVal
  if strIn "AL:" cellUpper then
    match searchLiteralThenNum "AL:".data cellUpper.data with
    | some g =>
      let alValStr := pyReplace ⟨g⟩ "," "."
      if pyFloatParses alValStr then posColUpdate colIdx (row.length / 2) st else st
    | none => st
  else st

def alCellLoop (row : Row) (st : Option Nat × Option Nat) : Option Nat × Option Nat :=
  (List.range row.length).foldl (fun st colIdx => alCellStep row colIdx st) st

/-- Second disambiguation pass over one check row (lines 232-243):
multi-line cells mentioning AL or CCT adjust the columns. -/
def multilineCellStep (row : Row) (colIdx : Nat) (st : Option Nat × Option Nat) : Option Nat × Option Nat :=
  let cellVal := if colIdx < row.length ∧ cellTruthy (row.getD colIdx none) then cellStr (row.getD colIdx none) else ""
  if strIn "\n" cellVal ∧ (strIn "AL" (pyUpper cellVal) ∨ strIn "CCT" (pyUpper cellVal)) then
    posColUpdate colIdx (row.length / 2) st
  else st

def multilineCellLoop (row : Row) (st : Option Nat × Option Nat) : Option Nat × Option Nat :=
  (List.range row.length).foldl (fun st colIdx => multilineCellStep row colIdx st) st

/-- Combined-header disambiguation over the next rows (lines 199-246),
with early exit once distinct columns are found. -/
def alSearchRows (table : Table) : List Nat → (Option Nat × Option Nat) → (Option Nat × Option Nat)
  | [], st => st
  | i :: rest, st =>
    let checkRow := table.getD i []
    if checkRow.isEmpty ∨ checkRow.length < 2 then alSearchRows table rest st
    else
      let st2 := multilineCellLoop checkRow (alCellLoop checkRow st)
      if st2.1.isSome ∧ st2.2.isSome ∧ st2.1 ≠ st2.2 then st2
      else alSearchRows table rest st2

/-- Python `max(len(row) for row in table if row)`; when the positional
heuristic runs, a non-empty header row exists, so the generator is
non-empty and the `0` seed is neutral. -/
def tableMaxCols (table : Table) : Nat :=
  (table.filter (fun r => ¬ r.isEmpty)).foldl (fun m r => max m r.length) 0

/-- Full column resolution for a detected header row (lines 178-261). -/
def resolveHeaderCols (table : Table) (h : Nat) (row : Row) : Option Nat × Option Nat :=
  let st := headerColScan row
  let st :=
    if st.1 = st.2 ∧ st.1.isSome then
      alSearchRows table (List.range' (h + 1) (min (h + 10) table.length - (h + 1))) st
    else st
  if st.1 = st.2 ∧ st.1.isSome then
    let maxCols := tableMaxCols table
    if 4 ≤ maxCols then (some 0, some 4)
    else (some 0, some (if 1 < maxCols then maxCols - 1 else 1))
  else st

/-- OS-column default scan (lines 270-279): look for an `AL:` value in
column 4 of the next rows; in every case the result is column 4. -/
def osColDefault (table : Table) (h : Nat) : Nat :=
  match (List.range' (h + 1) (min (h + 6) table.length - (h + 1))).findSome? (fun i =>
    let checkRow := table.getD i []
    if ¬ checkRow.isEmpty ∧ 4 < checkRow.length ∧ cellTruthy (checkRow.getD 4 none) ∧
        strIn "AL:" (pyUpper (cellStr (checkRow.getD 4 none))) then some 4 else none) with
  | some c => c
  | none => 4

/-- The measurement label table shared by patterns 1-3 (lines 301-304,
343-346, 374-377, 396-399). -/
def labelList : List (String × String) :=
  [("AL", "AL"), ("CCT", "PACHY (mm)"), ("ACD", "ACD epit"), ("LT", "LT"),
   ("K1", "K1"), ("K2", "K2"), ("WTW", "WTW (mm)")]

/-- Accumulator dispatch of pattern 1 (lines 309-326): exact column
match first, then the `< 4` positional split.  The column indices are
never `None` here (parse defaults them first), so the guards reduce to
plain equality; the final arm is unreachable. -/
def p1Dispatch (odCol osCol colIdx : Nat) (excel val : String) (acc : Rec × Rec) : Rec × Rec :=
  if colIdx = odCol then (recSetIfAbsent acc.1 excel val, acc.2)
  else if colIdx = osCol then (acc.1, recSetIfAbsent acc.2 excel val)
  else if colIdx < 4 then (recSetIfAbsent acc.1 excel val, acc.2)
  else if 4 ≤ colIdx then (acc.1, recSetIfAbsent acc.2 excel val)
  else acc

/-- One label of pattern 1 in one cell (lines 301-326): an inline
`LABEL:` occurrence whose extracted value is non-empty is dispatched. -/
def pattern1LabelStep (odCol osCol colIdx : Nat) (cellText ctU : String)
    (acc : Rec × Rec) (lp : String × String) : Rec × Rec :=
  if strIn (lp.1 ++ ":") ctU then
    if extractValueFromText cellText lp.1 ≠ "" then
      p1Dispatch odCol osCol colIdx lp.2 (extractValueFromText cellText lp.1) acc
    else acc
  else acc

/-- Pattern 1 over one measurement row (lines 294-326). -/
def pattern1Row (odCol osCol : Nat) (row : Row) (acc : Rec × Rec) : Rec × Rec :=
  row.enum.foldl (fun acc ic =>
    if ¬ cellTruthy ic.2 then acc
    else labelList.foldl
      (pattern1LabelStep odCol osCol ic.1 (cellStr ic.2) (pyUpper (cellStr ic.2))) acc) acc

/-- The stripped non-empty lines of a multi-line cell (line 336). -/
def pattern2Lines (cellS : String) : List String :=
  ((splitOnChar '\n' cellS.data).map (fun l => pyTrim ⟨l⟩)).filter (fun l => l ≠ "")

/-- The write of pattern 2 (lines 354-364): set-if-absent into OD for
columns 0-3, OS for 4+. -/
def pattern2Write (colIdx : Nat) (excel val : String) (acc : Rec × Rec) : Rec × Rec :=
  if val ≠ "" then
    if colIdx < 4 then (recSetIfAbsent acc.1 excel val, acc.2)
    else (acc.1, recSetIfAbsent acc.2 excel val)
  else acc

/-- One label of pattern 2 in one multi-line cell (lines 343-364):
value from the second line, else from the whole cell. -/
def pattern2LabelStep (colIdx : Nat) (cellS firstLine secondLine : String)
    (acc : Rec × Rec) (lp : String × String) : Rec × Rec :=
  if strIn lp.1 firstLine then
    pattern2Write colIdx lp.2
      (let val0 := extractValueFromText secondLine lp.1
       if val0 = "" then extractValueFromText cellS lp.1 else val0) acc
  else acc

/-- Pattern 2 for one multi-line cell (lines 335-364). -/
def pattern2Cell (colIdx : Nat) (cellS : String) (acc : Rec × Rec) : Rec × Rec :=
  if 2 ≤ (pattern2Lines cellS).length then
    labelList.foldl
      (pattern2LabelStep colIdx cellS (pyUpper ((pattern2Lines cellS).getD 0 ""))
        ((pattern2Lines cellS).getD 1 "")) acc
  else acc

/-- Pattern 2 over one measurement row (lines 330-364). -/
def pattern2Row (row : Row) (acc : Rec × Rec) : Rec × Rec :=
  row.enum.foldl (fun acc ic =>
    if ¬ cellTruthy ic.2 then acc
    else if strIn "\n" (cellStr ic.2) then pattern2Cell ic.1 (cellStr ic.2) acc
    else acc) acc

/-- One label of pattern 3 in an OD-side cell (lines 374-382): label
anywhere in the cell, written only if the field is not already set. -/
def pattern3OdLabelStep (cellText ctU : String) (acc : Rec × Rec)
    (lp : String × String) : Rec × Rec :=
  if strIn lp.1 ctU ∧ ¬ recContains acc.1 lp.2 then
    if extractValueFromText cellText lp.1 ≠ "" then
      (recSet acc.1 lp.2 (extractValueFromText cellText lp.1), acc.2)
    else acc
  else acc

/-- The OD-side axis write of pattern 3 (lines 386-390). -/
def pattern3OdAxe (cellText : String) (row : Row) (colIdx : Nat) (acc : Rec × Rec) : Rec × Rec :=
  if strIn "K1" (pyUpper cellText) ∧ ¬ recContains acc.1 "Axe" then
    if extractModeleImplante cellText row colIdx ≠ "" then
      (recSet acc.1 "Axe" (extractModeleImplante cellText row colIdx), acc.2)
    else acc
  else acc

/-- One label of pattern 3 in an OS-side cell (lines 396-404). -/
def pattern3OsLabelStep (cellText ctU : String) (acc : Rec × Rec)
    (lp : String × String) : Rec × Rec :=
  if strIn lp.1 ctU ∧ ¬ recContains acc.2 lp.2 then
    if extractValueFromText cellText lp.1 ≠ "" then
      (acc.1, recSet acc.2 lp.2 (extractValueFromText cellText lp.1))
    else acc
  else acc

/-- The OS-side axis write of pattern 3 (lines 406-412). -/
def pattern3OsAxe (cellText : String) (row : Row) (colIdx : Nat) (acc : Rec × Rec) : Rec × Rec :=
  if strIn "K1" (pyUpper cellText) ∧ ¬ recContains acc.2 "Axe" then
    if extractModeleImplante cellText row colIdx ≠ "" then
      (acc.1, recSet acc.2 "Axe" (extractModeleImplante cellText row colIdx))
    else acc
  else acc

/-- Pattern 3 over one measurement row (lines 368-412): columns 0-3 to
OD and 4+ to OS, plus the axis extraction from K1 cells. -/
def pattern3Row (row : Row) (acc : Rec × Rec) : Rec × Rec :=
  (List.range row.length).foldl (fun acc colIdx =>
    if colIdx < 4 then
      if cellTruthy (row.getD colIdx none) then
        pattern3OdAxe (cellStr (row.getD colIdx none)) row colIdx
          (labelList.foldl
            (pattern3OdLabelStep (cellStr (row.getD colIdx none))
              (pyUpper (cellStr (row.getD colIdx none)))) acc)
      else acc
    else
      if cellTruthy (row.getD colIdx none) then
        pattern3OsAxe (cellStr (row.getD colIdx none)) row colIdx
          (labelList.foldl
            (pattern3OsLabelStep (cellStr (row.getD colIdx none))
              (pyUpper (cellStr (row.getD colIdx none)))) acc)
      else acc) acc

/-- One measurement row: patterns 1, 2 and 3 in order.  The locals
`row_text_all` and `row_first_col` of lines 289-290 are computed but
never used and are omitted. -/
def measurementRow (odCol osCol : Nat) (row : Row) (acc : Rec × Rec) : Rec × Rec :=
  pattern3Row row (pattern2Row row (pattern1Row odCol osCol row acc))

/-- The measurement loop (lines 283-412):
`range(header_row_idx + 1, min(header_row_idx + 20, len(table)))`. -/
def measurementRows (table : Table) (h odCol osCol : Nat) (acc : Rec × Rec) : Rec × Rec :=
  (List.range' (h + 1) (min (h + 20) table.length - (h + 1))).foldl (fun acc i =>
    if (table.getD i []).isEmpty then acc
    else measurementRow odCol osCol (table.getD i []) acc) acc

/-- `FIELD_MAPPING` class attribute. -/
def FIELD_MAPPING : List (String × String) :=
  [("ID Patient", "ID Patient"), ("Né(e) le", "Âge"), ("AL", "AL"),
   ("CCT", "PACHY (mm)"), ("ACD", "ACD epit"), ("LT", "LT"), ("K1", "K1"),
   ("K2", "K2"), ("WTW", "WTW (mm)"), ("Modèle implanté", "Axe")]

/-- `FIELD_MAPPING.get(label, label)`. -/
def fieldMappingGet (l : String) : String :=
  (recFind FIELD_MAPPING l).getD l

/-- The label pairs of the fallback branch (lines 440-441). -/
def fallbackFieldList : List (String × String) :=
  [("CCT", "CCT"), ("ACD", "ACD"), ("LT", "LT"), ("K1", "K1"), ("K2", "K2"), ("WTW", "WTW")]

/-- One row of the per-table fallback branch (lines 417-450).  Writes
here are unconditional dict assignments, not set-if-absent. -/
def fallbackRow (table : Table) (rowIdx : Nat) (row : Row) (acc : Rec × Rec) : Rec × Rec :=
  let rt := pyUpper (rowText row)
  let hasOd := strIn "OD" rt
  let hasOs := strIn "OS" rt
  if hasOd ∨ hasOs then
    row.enum.foldl (fun acc ic =>
      let cellText := if cellTruthy ic.2 then pyUpper (cellStr ic.2) else ""
      let acc :=
        if strIn "AL" cellText then
          let val := extractValueFromCell row ic.1 table rowIdx
          if hasOd ∧ ic.1 < row.length / 2 then (recSet acc.1 "AL" val, acc.2)
          else if hasOs ∧ row.length / 2 ≤ ic.1 then (acc.1, recSet acc.2 "AL" val)
          else acc
        else acc
      fallbackFieldList.foldl (fun acc fp =>
        if strIn fp.2 cellText then
          let val := extractValueFromCell row ic.1 table rowIdx
          let excel := fieldMappingGet fp.2
          if hasOd ∧ ic.1 < row.length / 2 then (recSet acc.1 excel val, acc.2)
          else if hasOs ∧ row.length / 2 ≤ ic.1 then (acc.1, recSet acc.2 excel val)
          else acc
        else acc) acc) acc
  else acc

/-- The fallback branch over a whole table (lines 415-450). -/
def fallbackTable (table : Table) (acc : Rec × Rec) : Rec × Rec :=
  table.enum.foldl (fun acc ir =>
    if ir.2.isEmpty then acc else fallbackRow table ir.1 ir.2 acc) acc

/-- Processing of one table (lines 147-450): header resolution and the
measurement loop, then the fallback branch if both accumulators are
still empty. -/
def tableStep (acc : Rec × Rec) (table : Table) : Rec × Rec :=
  if table.length < 2 then acc
  else
    let acc1 :=
      match findHeader table with
      | none => acc
      | some hr =>
        let st := resolveHeaderCols table hr.1 hr.2
        let odCol := st.1.getD 0
        let osCol := match st.2 with | some c => c | none => osColDefault table hr.1
        measurementRows table hr.1 odCol osCol acc
    if acc1.1.isEmpty ∧ acc1.2.isEmpty then fallbackTable table acc1 else acc1

/-- The accumulators after all tables (lines 144-450). -/
def processTables (tables : List Table) : Rec × Rec :=
  tables.foldl tableStep ([], [])

/-- Default record created when one eye's accumulator is empty
(lines 456 and 472). -/
def defaultEyeRec (eye pid age : String) : Rec :=
  [("Œil", eye), ("ID Patient", pid), ("Âge", age), ("K1", ""), ("K2", ""), ("Axe", "")]

/-- Finalization of one eye record (lines 455-485). -/
def finalizeEyeRec (r : Rec) (eye pid age : String) : Rec :=
  if r.isEmpty then defaultEyeRec eye pid age
  else
    let r := recSet r "Œil" eye
    let r := recSet r "ID Patient" pid
    let r := recSet r "Âge" age
    let r := recSetIfAbsent r "K1" ""
    let r := recSetIfAbsent r "K2" ""
    recSetIfAbsent r "Axe" ""

/-- `IOL700Parser._extract_from_tables` (lines 141-490). -/
def extractFromTables (tables : List Table) (pid age : String) : Option Rec × Option Rec :=
  let acc := processTables tables
  if ¬ acc.1.isEmpty ∨ ¬ acc.2.isEmpty then
    (some (finalizeEyeRec acc.1 "OD" pid age), some (finalizeEyeRec acc.2 "OS" pid age))
  else (none, none)

/-! ## `IOL700Parser._extract_eye_data` and `parse`

The text-fallback extractor drives `re.search` over the whole document
text with proximity patterns.  The search engine is abstracted as an
oracle mapping the literal pattern string to the first capture group
(`None` on no match); every theorem below holds for every oracle, in
particular for the real regex engine on the real document text. -/

/-- `IOL700Parser._extract_numeric_field`: capture, strip, comma to
dot, accept only if it parses as a float. -/
def extractNumericField (search : String → Option String) (pattern : String) : String :=
  match search pattern with
  | some g =>
    let value := pyReplace (pyTrim g) "," "."
    if pyFloatParses value then value else ""
  | none => ""

/-- The `if not x: try next pattern` cascade used per field. -/
def eyeFieldCascade (search : String → Option String) : List String → String
  | [] => ""
  | p :: rest =>
    let v := extractNumericField search p
    if v = "" then eyeFieldCascade search rest else v

/-- The four-step axis regex cascade (lines 664-677). -/
def axeCascade (search : String → Option String) : List String → Option String
  | [] => none
  | p :: rest =>
    match search p with
    | some g => some g
    | none => axeCascade search rest

/-- `IOL700Parser._extract_eye_data` (lines 602-679). -/
def extractEyeData (search : String → Option String) (eye : String) : Rec :=
  let eyePattern := eye ++ "[:\\s]*"
  let al := eyeFieldCascade search
    [eyePattern ++ ".*?AL[:\\s]+([\\d.,]+)", "AL[:\\s]+([\\d.,]+).*?" ++ eye,
     eyePattern ++ ".*?AL[:\\s]+([\\d.,]+)\\s*mm"]
  let cct := eyeFieldCascade search
    [eyePattern ++ ".*?CCT[:\\s]+([\\d.,]+)", "CCT[:\\s]+([\\d.,]+).*?" ++ eye,
     eyePattern ++ ".*?PACHY[:\\s]+([\\d.,]+)"]
  let acd := eyeFieldCascade search
    [eyePattern ++ ".*?ACD[:\\s]+([\\d.,]+)", "ACD[:\\s]+([\\d.,]+).*?" ++ eye,
     eyePattern ++ ".*?ACD\\s+epit[:\\s]+([\\d.,]+)"]
  let lt := eyeFieldCascade search
    [eyePattern ++ ".*?LT[:\\s]+([\\d.,]+)", "LT[:\\s]+([\\d.,]+).*?" ++ eye]
  let k1 := eyeFieldCascade search
    [eyePattern ++ ".*?K1[:\\s]+([\\d.,]+)", "K1[:\\s]+([\\d.,]+).*?" ++ eye]
  let k2 := eyeFieldCascade search
    [eyePattern ++ ".*?K2[:\\s]+([\\d.,]+)", "K2[:\\s]+([\\d.,]+).*?" ++ eye]
  let wtw := eyeFieldCascade search
    [eyePattern ++ ".*?WTW[:\\s]+([\\d.,]+)", "WTW[:\\s]+([\\d.,]+).*?" ++ eye]
  let axe := axeCascade search
    [eyePattern ++ ".*?@\\s*(\\d+)\\s*°", "@\\s*(\\d+)\\s*°",
     eyePattern ++ ".*?@\\s*(\\d+)", "@\\s*(\\d+)"]
  let data : Rec := []
  let data := recSet data "AL" (if al ≠ "" then pyReplace al "," "." else "")
  let data := recSet data "PACHY (mm)" (if cct ≠ "" then pyReplace cct "," "." else "")
  let data := recSet data "ACD epit" (if acd ≠ "" then pyReplace acd "," "." else "")
  let data := recSet data "LT" (if lt ≠ "" then pyReplace lt "," "." else "")
  let data := recSet data "K1" (if k1 ≠ "" then pyReplace k1 "," "." else "")
  let data := recSet data "K2" (if k2 ≠ "" then pyReplace k2 "," "." else "")
  let data := recSet data "WTW (mm)" (if wtw ≠ "" then pyReplace wtw "," "." else "")
  recSet data "Axe" (axe.getD "")

/-- The six per-eye statements of the text-fallback branch (lines
112-121 for OD, repeated verbatim as lines 126-135 for OS): attach the
identity fields, then default K1, K2 and Axe if absent. -/
def textFinalizeEye (base : Rec) (eye pid age : String) : Rec :=
  let d := recSet base "ID Patient" pid
  let d := recSet d "Âge" age
  let d := recSet d "Œil" eye
  let d := recSetIfAbsent d "K1" ""
  let d := recSetIfAbsent d "K2" ""
  recSetIfAbsent d "Axe" ""

/-- The text-fallback records of `parse` (lines 108-139). -/
def textFallbackRecords (search : String → Option String) (pid age : String) : List Rec :=
  [textFinalizeEye (extractEyeData search "OD") "OD" pid age,
   textFinalizeEye (extractEyeData search "OS") "OS" pid age]

/-- `IOL700Parser.parse` after demographics (lines 96-139).  The
patient id and age computed by lines 52-93 enter as parameters (they
are plain strings, modeled separately by `calculateAge`); the document
text enters through the regex oracle. -/
def parseModel (search : String → Option String) (pid age : String) (tables : List Table) : List Rec :=
  if tables.isEmpty then textFallbackRecords search pid age
  else
    match extractFromTables tables pid age with
    | (some odData, some osData) =>
      if ¬ odData.isEmpty ∧ ¬ osData.isEmpty then [odData, osData]
      else textFallbackRecords search pid age
    | _ => textFallbackRecords search pid age

/-! ## `IOL700Parser._calculate_age`

`datetime.strptime` is modeled for the nine formats the code tries.
CPython matches `%d` with `3[01]|[12]\d|0[1-9]|[1-9]`, `%m` with
`1[0-2]|0[1-9]|[1-9]`, `%Y` with exactly four digits and `%y` with
exactly two digits (pivot: 00-68 maps to 2000-2068, 69-99 to
1900-1999), requires the whole string to match, and then the
`datetime` constructor validates the calendar date. -/

structure PyDate where
  year : Nat
  month : Nat
  day : Nat
deriving DecidableEq, Repr

/-- Component `%d`: equivalent to a full match of `3[01]|[12]\d|0[1-9]|[1-9]`. -/
def matchDay (s : String) : Option Nat :=
  let cs := s.data
  if cs.all Char.isDigit ∧
      ((cs.length = 1 ∧ 1 ≤ natOfDigits cs ∧ natOfDigits cs ≤ 9) ∨
       (cs.length = 2 ∧ 1 ≤ natOfDigits cs ∧ natOfDigits cs ≤ 31)) then
    some (natOfDigits cs)
  else none

/-- Component `%m`: equivalent to a full match of `1[0-2]|0[1-9]|[1-9]`. -/
def matchMonth (s : String) : Option Nat :=
  let cs := s.data
  if cs.all Char.isDigit ∧
      ((cs.length = 1 ∧ 1 ≤ natOfDigits cs ∧ natOfDigits cs ≤ 9) ∨
       (cs.length = 2 ∧ 1 ≤ natOfDigits cs ∧ natOfDigits cs ≤ 12)) then
    some (natOfDigits cs)
  else none

/-- Component `%Y`: exactly four digits. -/
def matchYear4 (s : String) : Option Nat :=
  let cs := s.data
  if cs.all Char.isDigit ∧ cs.length = 4 then some (natOfDigits cs) else none

/-- Component `%y` with CPython's default pivot. -/
def naiveTwoDigitYear (yy : Nat) : Nat :=
  if yy ≤ 68 then 2000 + yy else 1900 + yy

def matchYear2 (s : String) : Option Nat :=
  let cs := s.data
  if cs.all Char.isDigit ∧ cs.length = 2 then some (naiveTwoDigitYear (natOfDigits cs)) else none

/-- Gregorian leap year. -/
def isLeapYear (y : Nat) : Bool :=
  y % 4 = 0 ∧ (y % 100 ≠ 0 ∨ y % 400 = 0)

def daysInMonth (y m : Nat) : Nat :=
  if m = 2 then (if isLeapYear y then 29 else 28)
  else if m = 4 ∨ m = 6 ∨ m = 9 ∨ m = 11 then 30
  else 31

/-- Validity check of the `datetime` constructor. -/
def validDate (y m d : Nat) : Bool :=
  1 ≤ y ∧ y ≤ 9999 ∧ 1 ≤ m ∧ m ≤ 12 ∧ 1 ≤ d ∧ d ≤ daysInMonth y m

/-- One entry of the `date_formats` list: separator, component order,
and whether the year component is `%y` (two-digit). -/
inductive FieldOrder where
  | dayFirst
  | yearFirst
deriving DecidableEq

structure DateFormat where
  sep : Char
  order : FieldOrder
  twoDigitYear : Bool
deriving DecidableEq

/-- The `date_formats` list of `_calculate_age` (lines 709-719), in order. -/
def dateFormats : List DateFormat :=
  [⟨'.', .dayFirst, false⟩, ⟨'/', .dayFirst, false⟩, ⟨'-', .dayFirst, false⟩,
   ⟨'.', .dayFirst, true⟩, ⟨'/', .dayFirst, true⟩, ⟨'-', .dayFirst, true⟩,
   ⟨'.', .yearFirst, false⟩, ⟨'/', .yearFirst, false⟩, ⟨'-', .yearFirst, false⟩]

/-- `datetime.strptime(s, fmt)` followed by the two-digit-year
adjustment of lines 726-727 (`replace` re-validates the date and its
`ValueError` is caught by the same `except`, moving to the next
format). -/
def tryFormat (fmt : DateFormat) (s : String) : Option PyDate :=
  match (splitOnChar fmt.sep s.data).map (fun l => String.mk l) with
  | [p1, p2, p3] =>
    let parsed : Option PyDate :=
      match fmt.order with
      | .dayFirst =>
        match matchDay p1, matchMonth p2, (if fmt.twoDigitYear then matchYear2 p3 else matchYear4 p3) with
        | some d, some m, some y => if validDate y m d then some ⟨y, m, d⟩ else none
        | _, _, _ => none
      | .yearFirst =>
        match matchYear4 p1, matchMonth p2, matchDay p3 with
        | some y, some m, some d => if validDate y m d then some ⟨y, m, d⟩ else none
        | _, _, _ => none
    match parsed with
    | some bd =>
      if fmt.twoDigitYear ∧ bd.year < 1950 then
        if validDate (bd.year + 100) bd.month bd.day then some ⟨bd.year + 100, bd.month, bd.day⟩ else none
      else some bd
    | none => none
  | _ => none

/-- The format cascade of `_calculate_age` (lines 721-730): first
format that parses wins. -/
def parseBirthDate (s : String) : Option PyDate :=
  dateFormats.findSome? (fun fmt => tryFormat fmt s)

/-- Python tuple comparison `(a, b) < (c, d)`. -/
def pairLt (a b c d : Nat) : Bool :=
  a < c ∨ (a = c ∧ b < d)

/-- The age formula of lines 735-740. -/
def ageFromDate (today : PyDate) (bd : PyDate) : Int :=
  (today.year : Int) - (bd.year : Int) -
    (if pairLt today.month today.day bd.month bd.day then 1 else 0)

/-- `IOL700Parser._calculate_age`, with `datetime.now()` passed in as
`today`. -/
def calculateAge (birthDateStr : String) (today : PyDate) : String :=
  if birthDateStr = "" then ""
  else
    match parseBirthDate birthDateStr with
    | none => ""
    | some bd => toString (ageFromDate today bd)

/-! ## `merge_excel_data` deduplication (excel_handler.py lines 130-155)

The workbook enters as the list of raw `(ID Patient, Œil)` cell pairs
of its data rows (`None` for empty cells); the incoming rows are
records as produced by `parse`. -/

/-- Existing-key harvesting (lines 131-139): trimmed pairs of rows
whose id and eye are both non-empty. -/
def existingKeys (wbPairs : List (Option String × Option String)) : List (String × String) :=
  wbPairs.foldl (fun keys pr =>
    let pid := pyTrim (pr.1.getD "")
    let eye := pyTrim (pr.2.getD "")
    if pid ≠ "" ∧ eye ≠ "" then keys ++ [(pid, eye)] else keys) []

/-- The key of an incoming record: `str(row.get(k, "")).strip()`. -/
def rowKey (row : Rec) : String × String :=
  (pyTrim ((recFind row "ID Patient").getD ""), pyTrim ((recFind row "Œil").getD ""))

/-- The duplicate filter (lines 141-153): a row is written iff its id
and eye are non-empty and its key is not yet seen; written keys are
added to the seen set.  Returns the written rows and the final key
set. -/
def mergeStep (st : List Rec × List (String × String)) (row : Rec) : List Rec × List (String × String) :=
  let k := rowKey row
  if k.1 ≠ "" ∧ k.2 ≠ "" ∧ k ∉ st.2 then (st.1 ++ [row], st.2 ++ [k])
  else st

def mergeFilter (keys : List (String × String)) (rows : List Rec) : List Rec × List (String × String) :=
  rows.foldl mergeStep ([], keys)

/-! ## Derived characterizations used in theorem statements -/

/-- The header-scan predicate the code satisfies for the OD column:
truthy cell containing "OD" but not "OS". -/
def odHeaderCellPred (ic : Nat × Cell) : Bool :=
  cellTruthy ic.2 && strIn "OD" (pyUpper (cellStr ic.2)) && !(strIn "OS" (pyUpper (cellStr ic.2)))

/-- The header-scan predicate the code satisfies for the OS column:
truthy cell containing "OS" but not "OD". -/
def osHeaderCellPred (ic : Nat × Cell) : Bool :=
  cellTruthy ic.2 && strIn "OS" (pyUpper (cellStr ic.2)) && !(strIn "OD" (pyUpper (cellStr ic.2)))

def headerOdColSpec (row : Row) : Option Nat :=
  (row.enum.find? odHeaderCellPred).map (·.1)

def headerOsColSpec (row : Row) : Option Nat :=
  (row.enum.find? osHeaderCellPred).map (·.1)

/-- Modelled from the spec's words, for comparison with the code: the
claimed OS column is "the index of the first cell whose text contains
OS (case-insensitive)", regardless of whether it also contains "OD". -/
def headerOsColClaimed (row : Row) : Option Nat :=
  (row.enum.find? (fun ic => cellTruthy ic.2 && strIn "OS" (pyUpper (cellStr ic.2)))).map (·.1)

/-- The plausibility test of pattern 3 of `_extract_value_from_text`:
the cleaned token is numeric and its value lies strictly between 0.5
and 100. -/
def plausibleTok (t : List Char) : Bool :=
  isNumeric (pyTrim (pyReplace ⟨t⟩ "," ".")) &&
    (match pyFloatVal (pyTrim (pyReplace ⟨t⟩ "," ".")) with
     | some q => numLt (1, 2) q && numLt q (100, 1)
     | none => false)

/-- First-match characterization of pattern 3: the first number-like
token of the text that passes the plausibility test, cleaned. -/
def firstPlausibleToken (text : String) : String :=
  match (findNumRuns text.data).find? plausibleTok with
  | some t => pyTrim (pyReplace ⟨t⟩ "," ".")
  | none => ""

/-- The eleven canonical output field names. -/
def canonicalKeys : List String :=
  ["ID Patient", "Âge", "Œil", "AL", "PACHY (mm)", "ACD epit", "LT", "K1", "K2", "WTW (mm)", "Axe"]

/-- The keys the table path guarantees in every returned record. -/
def guaranteedKeys : List String :=
  ["ID Patient", "Âge", "Œil", "K1", "K2", "Axe"]

/-! ## Record lemmas -/

theorem recFind_cons (p : String × String) (rest : Rec) (k : String) :
    recFind (p :: rest) k = if p.1 == k then some p.2 else recFind rest k := by
  simp only [recFind, List.find?]
  cases h : (p.1 == k) <;> simp [h]

theorem recContains_cons (p : String × String) (rest : Rec) (k : String) :
    recContains (p :: rest) k = (p.1 == k || recContains rest k) := by
  simp [recContains]

theorem recContains_eq_isSome (r : Rec) (k : String) :
    recContains r k = (recFind r k).isSome := by
  induction r with
  | nil => rfl
  | cons p rest ih =>
    rw [recContains_cons, recFind_cons]
    cases h : (p.1 == k) <;> simp [h, ih]

theorem recFind_append (r s : Rec) (k : String) :
    recFind (r ++ s) k = ((recFind r k).or (recFind s k)) := by
  simp [recFind, List.find?_append]
  cases List.find? (fun p => p.1 == k) r <;> simp

theorem recFind_mapSet_self (r : Rec) (k v : String) (hc : recContains r k = true) :
    recFind (r.map (fun p => if p.1 == k then (k, v) else p)) k = some v := by
  induction r with
  | nil => simp [recContains] at hc
  | cons p rest ih =>
    rw [recContains_cons] at hc
    rw [List.map_cons]
    by_cases hpk : p.1 = k
    · have hpb : (p.1 == k) = true := by simp [hpk]
      rw [hpb, if_pos rfl, recFind_cons]
      simp
    · have hpb : (p.1 == k) = false := by simp [hpk]
      rw [hpb] at hc ⊢
      simp only [Bool.false_or] at hc
      rw [if_neg Bool.false_ne_true, recFind_cons, hpb]
      simpa using ih hc

theorem recFind_mapSet_ne (r : Rec) (k k' v : String) (hne : k' ≠ k) :
    recFind (r.map (fun p => if p.1 == k' then (k', v) else p)) k = recFind r k := by
  have hb : (k' == k) = false := by simp [hne]
  induction r with
  | nil => rfl
  | cons p rest ih =>
    rw [List.map_cons]
    by_cases hpk : p.1 = k'
    · have hpb : (p.1 == k') = true := by simp [hpk]
      have hpkk : (p.1 == k) = false := by simp [hpk, hne]
      rw [hpb, if_pos rfl, recFind_cons, recFind_cons, hpkk]
      simpa [hb] using ih
    · have hpb : (p.1 == k') = false := by simp [hpk]
      rw [hpb, if_neg Bool.false_ne_true, recFind_cons, recFind_cons]
      cases hpkk : (p.1 == k)
      · simp only [hpkk, Bool.false_eq_true, if_false]
        simpa using ih
      · simp [hpkk]

theorem recFind_recSet_self (r : Rec) (k v : String) :
    recFind (recSet r k v) k = some v := by
  rw [recSet]
  split
  · exact recFind_mapSet_self r k v (by assumption)
  · rw [recFind_append]
    rename_i hc
    have : recFind r k = none := by
      cases hf : recFind r k with
      | none => rfl
      | some w =>
        exact absurd (by rw [recContains_eq_isSome, hf]; rfl) hc
    rw [this]
    simp [recFind, List.find?]

theorem recFind_recSet_ne (r : Rec) (k k' v : String) (hne : k' ≠ k) :
    recFind (recSet r k' v) k = recFind r k := by
  have hb : (k' == k) = false := by simp [hne]
  rw [recSet]
  split
  · exact recFind_mapSet_ne r k k' v hne
  · rw [recFind_append]
    simp [recFind, List.find?, hb]

theorem recFind_recSetIfAbsent_ne (r : Rec) (k k' v : String) (hne : k' ≠ k) :
    recFind (recSetIfAbsent r k' v) k = recFind r k := by
  have hb : (k' == k) = false := by simp [hne]
  rw [recSetIfAbsent]
  split
  · rfl
  · rw [recFind_append]
    simp [recFind, List.find?, hb]

theorem recFind_recSetIfAbsent_preserve (r : Rec) (k k' v v' : String)
    (h : recFind r k = some v) : recFind (recSetIfAbsent r k' v') k = some v := by
  by_cases hk : k' = k
  · subst hk
    have : recContains r k' = true := by
      rw [recContains_eq_isSome, h]; rfl
    rw [recSetIfAbsent, if_pos this, h]
  · rw [recFind_recSetIfAbsent_ne r k k' v' hk, h]

theorem isSome_recFind_recSetIfAbsent_self (r : Rec) (k v : String) :
    (recFind (recSetIfAbsent r k v) k).isSome := by
  rw [recSetIfAbsent]
  split
  · rename_i hc
    rw [← recContains_eq_isSome, hc]
  · rw [recFind_append]
    cases hf : recFind r k <;> simp [hf, recFind, List.find?]

theorem recSetIfAbsent_ne_nil (r : Rec) (k v : String) :
    recSetIfAbsent r k v ≠ [] ∨ r ≠ [] := by
  by_cases hr : r = []
  · subst hr
    left
    simp [recSetIfAbsent, recContains]
  · right; exact hr

theorem isSome_recFind_recSet (r : Rec) (k k' v : String) :
    (recFind (recSet r k' v) k).isSome ↔ k' = k ∨ (recFind r k).isSome := by
  by_cases h : k' = k
  · subst h
    simp [recFind_recSet_self]
  · rw [recFind_recSet_ne r k k' v h]
    simp [h]

theorem isSome_recFind_recSetIfAbsent (r : Rec) (k k' v : String) :
    (recFind (recSetIfAbsent r k' v) k).isSome ↔ k' = k ∨ (recFind r k).isSome := by
  by_cases h : k' = k
  · subst h
    simp [isSome_recFind_recSetIfAbsent_self]
  · rw [recFind_recSetIfAbsent_ne r k k' v h]
    simp [h]

/-! ## Claim C7: age computation -/

/-- C7.  For every birth-date string that parses under one of the
listed date formats, the computed age equals the current year minus
the birth year, decremented by one exactly when the current
(month, day) pair lexicographically precedes the birth (month, day)
pair; with current date 2024-01-01 the birth date "17.08.2010" yields
"13" and "17.08.2024" yields "-1"; every unparsable or empty string
yields "" (the model is total, so no error is raised). -/
theorem c7_age_formula (s : String) (today : PyDate) :
    (∀ bd, parseBirthDate s = some bd → calculateAge s today = toString (ageFromDate today bd)) ∧
    (parseBirthDate s = none → calculateAge s today = "") ∧
    calculateAge "17.08.2010" ⟨2024, 1, 1⟩ = "13" ∧
    calculateAge "17.08.2024" ⟨2024, 1, 1⟩ = "-1" := by
  refine ⟨?_, ?_, by decide, by decide⟩
  · intro bd h
    by_cases hs : s = ""
    · subst hs
      rw [show parseBirthDate "" = none from by decide] at h
      cases h
    · rw [calculateAge, if_neg hs, h]
  · intro h
    rw [calculateAge]
    split
    · rfl
    · rw [h]

/-- Witness for C7 at concrete inputs. -/
theorem c7_age_formula_witness :
    calculateAge "17.08.2010" ⟨2024, 1, 1⟩ = toString (ageFromDate ⟨2024, 1, 1⟩ ⟨2010, 8, 17⟩) ∧
    calculateAge "31.02.2021" ⟨2024, 1, 1⟩ = "" :=
  ⟨(c7_age_formula "17.08.2010" ⟨2024, 1, 1⟩).1 ⟨2010, 8, 17⟩ (by decide),
   (c7_age_formula "31.02.2021" ⟨2024, 1, 1⟩).2.1 (by decide)⟩

/-! ## Claim C8: two-digit-year pivot -/

/-- C8 counterexample.  The claim says a two-digit year whose naive
default-pivot parse is not below 1950 is interpreted in the 2000s; for
"17.08.70" the naive pivot gives 1970 (not below 1950), yet the parsed
year is 1970, which is not in the 2000s. -/
theorem c8_counterexample :
    (parseBirthDate "17.08.70").map PyDate.year = some 1970 ∧
    naiveTwoDigitYear 70 = 1970 ∧ ¬ (1970 : Nat) < 1950 ∧ (1970 : Nat) < 2000 := by
  refine ⟨by decide, by decide, by decide, by decide⟩

/-- Digits bound used for the two-digit-year characterization. -/
theorem natOfDigits_two_le (cs : List Char) (hd : cs.all Char.isDigit = true)
    (hl : cs.length = 2) : natOfDigits cs ≤ 99 := by
  match cs, hl with
  | [a, b], _ =>
    simp only [List.all_cons, List.all_nil, Bool.and_true, Bool.and_eq_true] at hd
    have ha := hd.1
    have hb := hd.2
    simp [Char.isDigit] at ha hb
    have ha2 : a.toNat ≤ 57 := ha.2
    have hb2 : b.toNat ≤ 57 := hb.2
    have h0 : '0'.toNat = 48 := rfl
    simp only [natOfDigits, List.foldl, h0]
    omega

/-- Core of C8: any parse under a day-first two-digit-year format ends
with the naive pivot year, the 100-year adjustment never firing. -/
theorem tryFormat_twoDigit_year (sep : Char) (s : String) (d : PyDate)
    (hp : tryFormat ⟨sep, .dayFirst, true⟩ s = some d) :
    ∃ yy, yy ≤ 99 ∧ d.year = naiveTwoDigitYear yy ∧
      ¬ naiveTwoDigitYear yy < 1950 ∧
      (yy ≤ 68 → d.year = 2000 + yy) ∧ (69 ≤ yy → d.year = 1900 + yy) := by
  rw [tryFormat] at hp
  rcases hsplit : (splitOnChar sep s.data).map (fun l => String.mk l) with _ | ⟨p1, rest⟩ <;>
    rw [hsplit] at hp
  · cases hp
  · rcases rest with _ | ⟨p2, rest2⟩
    · cases hp
    · rcases rest2 with _ | ⟨p3, rest3⟩
      · cases hp
      · rcases rest3 with _ | ⟨p4, rest4⟩
        · rcases hday : matchDay p1 with _ | dd
          · simp [hday] at hp
          · rcases hmon : matchMonth p2 with _ | mm
            · simp [hday, hmon] at hp
            · rcases hyr : matchYear2 p3 with _ | yv
              · simp [hday, hmon, hyr] at hp
              · by_cases hcond : p3.data.all Char.isDigit = true ∧ p3.data.length = 2
                · have hyy := natOfDigits_two_le p3.data hcond.1 hcond.2
                  have hyv : yv = naiveTwoDigitYear (natOfDigits p3.data) := by
                    have h := hyr
                    rw [matchYear2, if_pos hcond] at h
                    injection h with h2
                    exact h2.symm
                  have hge : ¬ yv < 1950 := by
                    rw [hyv, naiveTwoDigitYear]
                    split <;> omega
                  by_cases hval : validDate yv mm dd = true
                  · simp only [hday, hmon, hyr, eq_self_iff_true, if_true, hval,
                      true_and] at hp
                    rw [if_neg hge] at hp
                    injection hp with h
                    refine ⟨natOfDigits p3.data, hyy, ?_, by rw [← hyv]; exact hge, ?_, ?_⟩
                    · rw [← h, ← hyv]
                    · intro h68
                      rw [← h]
                      simp only [hyv, naiveTwoDigitYear, if_pos h68]
                    · intro h69
                      rw [← h]
                      simp only [hyv, naiveTwoDigitYear, if_neg (by omega : ¬ natOfDigits p3.data ≤ 68)]
                  · simp [hday, hmon, hyr, hval] at hp
                · rw [matchYear2, if_neg hcond] at hyr
                  cases hyr
        · cases hp

/-- C8 amended.  For every birth-date string parsed under one of the
two-digit-year formats of the cascade, 100 years are added exactly
when the naive default-pivot year falls below 1950; the pivot yields
only years 1969-2068, so the adjustment never fires and the final year
is the naive pivot year: 2000s for two-digit values 00-68, 1900s for
values 69-99 (not always the 2000s, as the claim stated). -/
theorem c8_amended (fmt : DateFormat) (s : String) (d : PyDate)
    (hfmt : fmt ∈ dateFormats) (h2 : fmt.twoDigitYear = true)
    (hp : tryFormat fmt s = some d) :
    ∃ yy, yy ≤ 99 ∧ d.year = naiveTwoDigitYear yy ∧
      ¬ naiveTwoDigitYear yy < 1950 ∧
      (yy ≤ 68 → d.year = 2000 + yy) ∧ (69 ≤ yy → d.year = 1900 + yy) := by
  fin_cases hfmt <;> first
    | exact tryFormat_twoDigit_year _ s d hp
    | exact (Bool.false_ne_true h2).elim

/-- Witness for C8 amended at "17.08.70". -/
theorem c8_amended_witness :
    ∃ yy, yy ≤ 99 ∧ (⟨1970, 8, 17⟩ : PyDate).year = naiveTwoDigitYear yy ∧
      ¬ naiveTwoDigitYear yy < 1950 ∧
      (yy ≤ 68 → (⟨1970, 8, 17⟩ : PyDate).year = 2000 + yy) ∧
      (69 ≤ yy → (⟨1970, 8, 17⟩ : PyDate).year = 1900 + yy) :=
  c8_amended ⟨'.', .dayFirst, true⟩ "17.08.70" ⟨1970, 8, 17⟩ (by decide) rfl (by decide)

/-! ## Claim C5: header-cell column scan -/

/-- Once the OD column is set, the scan never changes it. -/
theorem hcsAux_fst_some (l : List (Nat × Cell)) (j : Nat) (osc : Option Nat) :
    (headerColScanAux l (some j, osc)).1 = some j := by
  induction l generalizing osc with
  | nil => rfl
  | cons ic rest ih =>
    obtain ⟨i, c⟩ := ic
    rw [headerColScanAux]
    split
    · exact ih osc
    · split
      · rename_i hcond
        exact absurd hcond.2.2 (by simp)
      · split
        · split
          · exact ih (some i)
          · exact ih osc
        · exact ih osc

/-- Once the OS column is set, the scan never changes it. -/
theorem hcsAux_snd_some (l : List (Nat × Cell)) (odc : Option Nat) (j : Nat) :
    (headerColScanAux l (odc, some j)).2 = some j := by
  induction l generalizing odc with
  | nil => rfl
  | cons ic rest ih =>
    obtain ⟨i, c⟩ := ic
    rw [headerColScanAux]
    split
    · exact ih odc
    · split
      · exact ih (some i)
      · split
        · rename_i hcond
          exact absurd hcond.2 (by simp)
        · exact ih odc

/-- While unset, the OD column resolves to the first truthy cell
containing "OD" but not "OS", independently of the OS state. -/
theorem hcsAux_fst_none (l : List (Nat × Cell)) (osc : Option Nat) :
    (headerColScanAux l (none, osc)).1 = (l.find? odHeaderCellPred).map (·.1) := by
  induction l generalizing osc with
  | nil => rfl
  | cons ic rest ih =>
    obtain ⟨i, c⟩ := ic
    by_cases ht : cellTruthy c = true
    · rw [headerColScanAux, if_neg (by simp [ht])]
      by_cases hod : strIn "OD" (pyUpper (cellStr c)) = true
      · by_cases hos : strIn "OS" (pyUpper (cellStr c)) = true
        · have hpred : odHeaderCellPred (i, c) = false := by
            simp [odHeaderCellPred, hos]
          rw [if_neg (fun hc => hc.2.1 hos)]
          simp only [List.find?, hpred]
          by_cases hosc : osc = none
          · rw [if_pos ⟨hos, hosc⟩, if_neg (fun hneg => hneg hod)]
            exact ih osc
          · rw [if_neg (fun hc => hosc hc.2)]
            exact ih osc
        · have hpred : odHeaderCellPred (i, c) = true := by
            have hos' : strIn "OS" (pyUpper (cellStr c)) = false := by simpa using hos
            simp [odHeaderCellPred, ht, hod, hos']
          rw [if_pos ⟨hod, hos, rfl⟩]
          simp only [List.find?, hpred, Option.map_some]
          exact hcsAux_fst_some rest i osc
      · have hod' : strIn "OD" (pyUpper (cellStr c)) = false := by simpa using hod
        have hpred : odHeaderCellPred (i, c) = false := by
          simp [odHeaderCellPred, hod']
        rw [if_neg (fun hc => hod hc.1)]
        simp only [List.find?, hpred]
        by_cases hos : strIn "OS" (pyUpper (cellStr c)) = true
        · by_cases hosc : osc = none
          · rw [if_pos ⟨hos, hosc⟩, if_pos hod]
            exact ih (some i)
          · rw [if_neg (fun hc => hosc hc.2)]
            exact ih osc
        · rw [if_neg (fun hc => hos hc.1)]
          exact ih osc
    · have ht' : cellTruthy c = false := by simpa using ht
      have hpred : odHeaderCellPred (i, c) = false := by
        simp [odHeaderCellPred, ht']
      rw [headerColScanAux, if_pos (by simp [ht'])]
      simp only [List.find?, hpred]
      exact ih osc

/-- While unset, the OS column resolves to the first truthy cell
containing "OS" but not "OD", independently of the OD state. -/
theorem hcsAux_snd_none (l : List (Nat × Cell)) (odc : Option Nat) :
    (headerColScanAux l (odc, none)).2 = (l.find? osHeaderCellPred).map (·.1) := by
  induction l generalizing odc with
  | nil => rfl
  | cons ic rest ih =>
    obtain ⟨i, c⟩ := ic
    by_cases ht : cellTruthy c = true
    · rw [headerColScanAux, if_neg (by simp [ht])]
      by_cases hos : strIn "OS" (pyUpper (cellStr c)) = true
      · by_cases hod : strIn "OD" (pyUpper (cellStr c)) = true
        · have hpred : osHeaderCellPred (i, c) = false := by
            simp [osHeaderCellPred, hod]
          rw [if_neg (fun hc => hc.2.1 hos), if_pos ⟨hos, rfl⟩,
            if_neg (fun hneg => hneg hod)]
          simp only [List.find?, hpred]
          exact ih odc
        · have hod' : strIn "OD" (pyUpper (cellStr c)) = false := by simpa using hod
          have hpred : osHeaderCellPred (i, c) = true := by
            simp [osHeaderCellPred, ht, hos, hod']
          rw [if_neg (fun hc => hod hc.1), if_pos ⟨hos, rfl⟩, if_pos hod]
          simp only [List.find?, hpred, Option.map_some]
          exact hcsAux_snd_some rest odc i
      · have hos' : strIn "OS" (pyUpper (cellStr c)) = false := by simpa using hos
        have hpred : osHeaderCellPred (i, c) = false := by
          simp [osHeaderCellPred, hos']
        simp only [List.find?, hpred]
        by_cases hb1 : strIn "OD" (pyUpper (cellStr c)) = true ∧
            ¬ strIn "OS" (pyUpper (cellStr c)) = true ∧ odc = none
        · rw [if_pos hb1]
          exact ih (some i)
        · rw [if_neg hb1, if_neg (fun hc => hos hc.1)]
          exact ih odc
    · have ht' : cellTruthy c = false := by simpa using ht
      have hpred : osHeaderCellPred (i, c) = false := by
        simp [osHeaderCellPred, ht']
      rw [headerColScanAux, if_pos (by simp [ht'])]
      simp only [List.find?, hpred]
      exact ih odc

/-- C5 amended.  In the header-cell scan, the OD column is the index of
the first truthy cell containing "OD" but not "OS" (as claimed), and
the OS column is the index of the first truthy cell containing "OS"
and not containing "OD" — a cell containing both eye markers sets
neither column, contrary to the claim's "regardless of whether it also
contains OD". -/
theorem c5_amended (row : Row) :
    headerColScan row = (headerOdColSpec row, headerOsColSpec row) := by
  rw [headerColScan, headerOdColSpec, headerOsColSpec]
  exact Prod.ext (hcsAux_fst_none row.enum none) (hcsAux_snd_none row.enum none)

/-- C5 counterexample.  On a header row whose only cell is "OD/OS",
the claim's reading predicts OS column 0; the code sets neither
column. -/
theorem c5_counterexample :
    (headerColScan [some "OD/OS"]).2 = none ∧
    headerOsColClaimed [some "OD/OS"] = some 0 ∧
    (headerColScan [some "OD/OS"]).2 ≠ headerOsColClaimed [some "OD/OS"] :=
  ⟨by decide, by decide, by decide⟩

/-! ## Claim C6: value-normalizer plausibility filter -/

/-- The pattern-3 token loop is a first-match search with the
plausibility predicate. -/
theorem evtPattern3List_eq_find (toks : List (List Char)) :
    evtPattern3List toks =
      (toks.find? plausibleTok).map (fun t => pyTrim (pyReplace ⟨t⟩ "," ".")) := by
  induction toks with
  | nil => rfl
  | cons t rest ih =>
    rw [evtPattern3List, List.find?]
    by_cases hn : isNumeric (pyTrim (pyReplace ⟨t⟩ "," ".")) = true
    · rw [if_pos hn]
      cases hq : pyFloatVal (pyTrim (pyReplace ⟨t⟩ "," ".")) with
      | none =>
        have hp : plausibleTok t = false := by
          simp [plausibleTok, hq]
        simp only [hq, hp]
        exact ih
      | some q =>
        by_cases hr : (numLt (1, 2) q && numLt q (100, 1)) = true
        · have hp : plausibleTok t = true := by
            simp [plausibleTok, hn, hq, hr]
          simp only [hq, if_pos hr, hp]
          rfl
        · have hr' : (numLt (1, 2) q && numLt q (100, 1)) = false := by simpa using hr
          have hp : plausibleTok t = false := by
            simp [plausibleTok, hq, hr']
          simp only [hq, hr', Bool.false_eq_true, if_false, hp]
          exact ih
    · have hn' : isNumeric (pyTrim (pyReplace ⟨t⟩ "," ".")) = false := by simpa using hn
      have hp : plausibleTok t = false := by
        simp [plausibleTok, hn']
      rw [if_neg hn]
      simp only [hp]
      exact ih

/-- The cross-multiplication test means the rational comparison. -/
theorem numLt_iff_mkRat (x y : Int × Nat) (hx : 0 < x.2) (hy : 0 < y.2) :
    numLt x y = true ↔ mkRat x.1 x.2 < mkRat y.1 y.2 := by
  rw [numLt, decide_eq_true_eq, Rat.mkRat_eq_div, Rat.mkRat_eq_div]
  have h1 : (0 : Rat) < (x.2 : Rat) := by exact_mod_cast hx
  have h2 : (0 : Rat) < (y.2 : Rat) := by exact_mod_cast hy
  rw [div_lt_div_iff h1 h2]
  constructor <;> intro h <;> exact_mod_cast h

/-- Every value produced by `pyFloatVal` has a positive denominator. -/
theorem pyFloatVal_den_pos (s : String) (v : Int × Nat) (h : pyFloatVal s = some v) :
    0 < v.2 := by
  rw [pyFloatVal] at h
  dsimp only at h
  repeat' split at h
  all_goals
    first
      | (injection h with h2
         subst h2
         first
           | exact pow_pos (by omega : (0 : Nat) < 10) _
           | exact Nat.mul_pos (pow_pos (by omega : (0 : Nat) < 10) _)
               (pow_pos (by omega : (0 : Nat) < 10) _))
      | injection h

/-- C6.  When neither the strict `label [:=] number` capture nor the
lazy `label ... number` capture yields a numeric value, the result is
the first number-like token, after comma-to-dot substitution, whose
value lies strictly between 0.5 (= 1/2) and 100, and "" if no such
token exists; in particular "24,18mm" normalizes to "24.18",
"24.18 D" to "24.18", and "abc" to "".  The second conjunct unfolds
the plausibility predicate into the rational inequalities. -/
theorem c6_plausibility_filter (text label : String)
    (h1 : evtPattern1 text label = none) (h2 : evtPattern2 text label = none) :
    extractValueFromText text label = firstPlausibleToken text ∧
    (∀ t v, pyFloatVal (pyTrim (pyReplace ⟨t⟩ "," ".")) = some v →
      (plausibleTok t = true ↔
        isNumeric (pyTrim (pyReplace ⟨t⟩ "," ".")) = true ∧
        mkRat 1 2 < mkRat v.1 v.2 ∧ mkRat v.1 v.2 < mkRat 100 1)) ∧
    extractValueFromText "24,18mm" "AL" = "24.18" ∧
    extractValueFromText "24.18 D" "AL" = "24.18" ∧
    extractValueFromText "abc" "AL" = "" := by
  refine ⟨?_, ?_, by decide, by decide, by decide⟩
  · rw [extractValueFromText]
    simp only [h1, h2]
    rw [evtPattern3, evtPattern3List_eq_find, firstPlausibleToken]
    cases (findNumRuns text.data).find? plausibleTok <;> rfl
  · intro t v hv
    have hden := pyFloatVal_den_pos _ _ hv
    rw [plausibleTok, hv]
    rw [Bool.and_eq_true,
      ← numLt_iff_mkRat (1, 2) v (by omega) hden,
      ← numLt_iff_mkRat v (100, 1) hden (by omega)]
    rw [Bool.and_eq_true]

/-- Witness for C6 at "24,18mm". -/
theorem c6_plausibility_filter_witness :
    extractValueFromText "24,18mm" "AL" = firstPlausibleToken "24,18mm" ∧
    (plausibleTok "24,18".data = true ↔
      isNumeric (pyTrim (pyReplace ⟨"24,18".data⟩ "," ".")) = true ∧
      mkRat 1 2 < mkRat (2418 : Int) 100 ∧ mkRat (2418 : Int) 100 < mkRat 100 1) :=
  ⟨(c6_plausibility_filter "24,18mm" "AL" (by decide) (by decide)).1,
   (c6_plausibility_filter "24,18mm" "AL" (by decide) (by decide)).2.1
     "24,18".data (2418, 100) (by decide)⟩

/-! ## Claim C10: merge deduplication -/

/-- Invariant of the duplicate filter: every written row has non-empty
key components and a key outside the original key set, and written
keys are pairwise distinct. -/
theorem mergeFilter_inv (rows : List Rec) (w : List Rec) (s keys : List (String × String))
    (hw : ∀ r ∈ w, (rowKey r).1 ≠ "" ∧ (rowKey r).2 ≠ "" ∧ rowKey r ∉ keys)
    (hnd : (w.map rowKey).Nodup)
    (hin : ∀ r ∈ w, rowKey r ∈ s)
    (hks : ∀ k ∈ keys, k ∈ s) :
    (∀ r ∈ (rows.foldl mergeStep (w, s)).1,
      (rowKey r).1 ≠ "" ∧ (rowKey r).2 ≠ "" ∧ rowKey r ∉ keys) ∧
    ((rows.foldl mergeStep (w, s)).1.map rowKey).Nodup := by
  induction rows generalizing w s with
  | nil => exact ⟨hw, hnd⟩
  | cons row rest ih =>
    rw [List.foldl_cons]
    by_cases hc : (rowKey row).1 ≠ "" ∧ (rowKey row).2 ≠ "" ∧ rowKey row ∉ s
    · have hstep : mergeStep (w, s) row = (w ++ [row], s ++ [rowKey row]) := by
        unfold mergeStep
        dsimp only
        rw [if_pos hc]
      rw [hstep]
      apply ih
      · intro r hr
        rcases List.mem_append.mp hr with hmem | hmem
        · exact hw r hmem
        · rw [List.mem_singleton] at hmem
          subst hmem
          exact ⟨hc.1, hc.2.1, fun hk => hc.2.2 (hks _ hk)⟩
      · rw [List.map_append, List.map_singleton]
        refine List.Nodup.append hnd (List.nodup_singleton _) ?_
        intro a ha hb
        rw [List.mem_singleton] at hb
        subst hb
        rcases List.mem_map.mp ha with ⟨r, hrw, hrk⟩
        exact hc.2.2 (hrk ▸ hin r hrw)
      · intro r hr
        rcases List.mem_append.mp hr with hmem | hmem
        · exact List.mem_append_left _ (hin r hmem)
        · rw [List.mem_singleton] at hmem
          subst hmem
          exact List.mem_append_right _ (List.mem_singleton_self _)
      · intro k hk
        exact List.mem_append_left _ (hks k hk)
    · have hstep : mergeStep (w, s) row = (w, s) := by
        unfold mergeStep
        dsimp only
        rw [if_neg hc]
      rw [hstep]
      exact ih w s hw hnd hin hks

/-- C10 amended.  A record whose trimmed (patient id, eye side) pair
already occurs among the existing keys, or earlier among the written
rows of the same call, is not written; appending the same pair twice
— within one call or across two calls — adds exactly one row when the
trimmed patient id and eye side are both non-empty.  (A record with an
empty patient id or eye side is never written at all, so appending
such a pair twice adds zero rows, not one as claimed.) -/
theorem c10_amended (keys : List (String × String)) (rows : List Rec) :
    (∀ r ∈ (mergeFilter keys rows).1,
      (rowKey r).1 ≠ "" ∧ (rowKey r).2 ≠ "" ∧ rowKey r ∉ keys) ∧
    ((mergeFilter keys rows).1.map rowKey).Nodup ∧
    (∀ r, (rowKey r).1 ≠ "" → (rowKey r).2 ≠ "" → rowKey r ∉ keys →
      (mergeFilter keys [r, r]).1 = [r] ∧
      (mergeFilter ((mergeFilter keys [r]).2) [r]).1 = []) := by
  have hbase := mergeFilter_inv rows [] keys keys
    (by intro r hr; cases hr) (by simp) (by intro r hr; cases hr) (fun k hk => hk)
  refine ⟨hbase.1, hbase.2, ?_⟩
  intro r h1 h2 h3
  have hstep1 : mergeStep ([], keys) r = ([r], keys ++ [rowKey r]) := by
    unfold mergeStep
    dsimp only
    rw [if_pos ⟨h1, h2, h3⟩]
    simp
  have hmem : rowKey r ∈ keys ++ [rowKey r] :=
    List.mem_append_right _ (List.mem_singleton_self _)
  have hstep2 : mergeStep ([r], keys ++ [rowKey r]) r = ([r], keys ++ [rowKey r]) := by
    unfold mergeStep
    dsimp only
    rw [if_neg (fun hcon => hcon.2.2 hmem)]
  have hstep3 : mergeStep ([], keys ++ [rowKey r]) r = ([], keys ++ [rowKey r]) := by
    unfold mergeStep
    dsimp only
    rw [if_neg (fun hcon => hcon.2.2 hmem)]
  constructor
  · show (List.foldl mergeStep ([], keys) [r, r]).1 = [r]
    rw [List.foldl_cons, hstep1, List.foldl_cons, hstep2, List.foldl_nil]
  · show (List.foldl mergeStep ([], (List.foldl mergeStep ([], keys) [r]).2) [r]).1 = []
    have hinner : (List.foldl mergeStep ([], keys) [r]).2 = keys ++ [rowKey r] := by
      rw [List.foldl_cons, hstep1, List.foldl_nil]
    rw [hinner, List.foldl_cons, hstep3, List.foldl_nil]

/-- Witness for C10 amended: the same non-empty pair appended twice
within one call and across two calls adds exactly one row. -/
theorem c10_amended_witness :
    (mergeFilter [("1", "OD")]
      [[("ID Patient", "2"), ("Œil", "OD")], [("ID Patient", "2"), ("Œil", "OD")]]).1 =
      [[("ID Patient", "2"), ("Œil", "OD")]] ∧
    (mergeFilter ((mergeFilter [("1", "OD")] [[("ID Patient", "2"), ("Œil", "OD")]]).2)
      [[("ID Patient", "2"), ("Œil", "OD")]]).1 = [] :=
  (c10_amended [("1", "OD")] []).2.2 [("ID Patient", "2"), ("Œil", "OD")]
    (by decide) (by decide) (by decide)

/-- C10 counterexample.  Two identical records whose patient id is
empty: the claim says appending the same pair twice adds exactly one
row, but the filter writes neither, adding zero rows. -/
theorem c10_counterexample :
    (mergeFilter (existingKeys [])
      [[("ID Patient", ""), ("Œil", "OD"), ("AL", "24.18")],
       [("ID Patient", ""), ("Œil", "OD"), ("AL", "24.18")]]).1.length = 0 ∧
    (0 : Nat) ≠ 1 :=
  ⟨by decide, by decide⟩

/-! ## Structure of the finalized records (used by C1, C2, C4) -/

theorem recFind_finalize_oeil (r : Rec) (eye pid age : String) :
    recFind (finalizeEyeRec r eye pid age) "Œil" = some eye := by
  rw [finalizeEyeRec]
  split
  · simp [defaultEyeRec, recFind]
  · simp [recFind_recSetIfAbsent_ne, recFind_recSet_ne, recFind_recSet_self]

theorem finalizeEyeRec_ne_nil (r : Rec) (eye pid age : String) :
    finalizeEyeRec r eye pid age ≠ [] := by
  intro h
  have hoeil := recFind_finalize_oeil r eye pid age
  rw [h] at hoeil
  cases hoeil

theorem finalizeEyeRec_guaranteed (r : Rec) (eye pid age : String) :
    ∀ k ∈ guaranteedKeys, (recFind (finalizeEyeRec r eye pid age) k).isSome := by
  intro k hk
  rw [finalizeEyeRec]
  split
  · fin_cases hk <;> simp [defaultEyeRec, recFind]
  · fin_cases hk <;>
      simp [isSome_recFind_recSetIfAbsent, isSome_recFind_recSet]

set_option maxHeartbeats 1000000 in
theorem extractEyeData_keys (search : String → Option String) (eye : String) :
    ∀ k ∈ ["AL", "PACHY (mm)", "ACD epit", "LT", "K1", "K2", "WTW (mm)", "Axe"],
      (recFind (extractEyeData search eye) k).isSome := by
  intro k hk
  fin_cases hk <;>
    (rw [extractEyeData]
     simp only [isSome_recFind_recSet]
     simp [recFind])

theorem textFinalizeEye_keys (base : Rec) (eye pid age : String)
    (hbase : ∀ k ∈ ["AL", "PACHY (mm)", "ACD epit", "LT", "K1", "K2", "WTW (mm)", "Axe"],
      (recFind base k).isSome) :
    ∀ k ∈ canonicalKeys, (recFind (textFinalizeEye base eye pid age) k).isSome := by
  intro k hk
  rw [textFinalizeEye]
  fin_cases hk <;>
    (simp only [isSome_recFind_recSetIfAbsent, isSome_recFind_recSet]
     first
       | (simp
          done)
       | exact Or.inr (Or.inr (Or.inr (Or.inr (Or.inr (Or.inr (hbase _ (by decide))))))))

theorem textFallbackRecords_keys (search : String → Option String) (pid age : String) :
    ∀ r ∈ textFallbackRecords search pid age, ∀ k ∈ canonicalKeys, (recFind r k).isSome := by
  intro r hr k hk
  rw [textFallbackRecords] at hr
  simp only [List.mem_cons, List.mem_singleton, List.not_mem_nil, or_false] at hr
  cases hr with
  | inl h =>
    rw [h]
    exact textFinalizeEye_keys _ "OD" pid age (extractEyeData_keys search "OD") k hk
  | inr h =>
    rw [h]
    exact textFinalizeEye_keys _ "OS" pid age (extractEyeData_keys search "OS") k hk

theorem recFind_textFinalizeEye_oeil (base : Rec) (eye pid age : String) :
    recFind (textFinalizeEye base eye pid age) "Œil" = some eye := by
  rw [textFinalizeEye]
  simp [recFind_recSetIfAbsent_ne, recFind_recSet_ne, recFind_recSet_self]

theorem textFallbackRecords_oeil (search : String → Option String) (pid age : String) :
    ∃ odR osR, textFallbackRecords search pid age = [odR, osR] ∧
      recFind odR "Œil" = some "OD" ∧ recFind osR "Œil" = some "OS" := by
  refine ⟨textFinalizeEye (extractEyeData search "OD") "OD" pid age,
    textFinalizeEye (extractEyeData search "OS") "OS" pid age,
    by rw [textFallbackRecords], ?_, ?_⟩ <;>
    exact recFind_textFinalizeEye_oeil _ _ pid age

/-! ## Claim C1: exactly two records, OD then OS -/

/-- C1.  For every input on which `parse` returns normally (the model
is total), it returns exactly two records, the first with eye side
"OD" and the second with "OS" — on the table path and on the
text-fallback path, for every patient id, age and regex-oracle
behavior. -/
theorem c1_two_records (search : String → Option String) (pid age : String)
    (tables : List Table) :
    ∃ odR osR, parseModel search pid age tables = [odR, osR] ∧
      recFind odR "Œil" = some "OD" ∧ recFind osR "Œil" = some "OS" := by
  rw [parseModel]
  split
  · exact textFallbackRecords_oeil search pid age
  · split
    · rename_i odData osData heq
      split
      · rw [extractFromTables] at heq
        split at heq
        · injection heq with h1 h2
          injection h1 with h1
          injection h2 with h2
          exact ⟨odData, osData, rfl, h1 ▸ recFind_finalize_oeil _ "OD" pid age,
            h2 ▸ recFind_finalize_oeil _ "OS" pid age⟩
        · cases heq
      · exact textFallbackRecords_oeil search pid age
    · exact textFallbackRecords_oeil search pid age

/-! ## Claim C2: key completeness of the returned records -/

/-- C2 counterexample.  A table input on which `parse` succeeds via the
table path but the first returned record lacks the canonical key
"PACHY (mm)" entirely (likewise "ACD epit", "LT", "WTW (mm)"): the
field is an absent key, not an empty string. -/
theorem c2_counterexample :
    recFind ((parseModel (fun _ => none) "1" "13"
      [[[some "OD", none], [some "AL: 24,18 mm", none]]]).getD 0 []) "PACHY (mm)" = none ∧
    "PACHY (mm)" ∈ canonicalKeys ∧
    (parseModel (fun _ => none) "1" "13"
      [[[some "OD", none], [some "AL: 24,18 mm", none]]]).length = 2 :=
  ⟨by decide, by decide, by decide⟩

/-- C2 amended.  Every record `parse` returns carries the identity and
defaulted keys "ID Patient", "Âge", "Œil", "K1", "K2", "Axe"; on the
text-fallback path every canonical key (including "AL", "PACHY (mm)",
"ACD epit", "LT", "WTW (mm)") is present with "" for missing data, but
on the table path the five measurement keys may be absent keys. -/
theorem c2_amended (search : String → Option String) (pid age : String)
    (tables : List Table) :
    (∀ r ∈ parseModel search pid age tables, ∀ k ∈ guaranteedKeys, (recFind r k).isSome) ∧
    (∀ r ∈ textFallbackRecords search pid age, ∀ k ∈ canonicalKeys, (recFind r k).isSome) := by
  refine ⟨?_, textFallbackRecords_keys search pid age⟩
  intro r hr k hk
  have hsub : k ∈ canonicalKeys := by fin_cases hk <;> decide
  rw [parseModel] at hr
  split at hr
  · exact textFallbackRecords_keys search pid age r hr k hsub
  · split at hr
    · rename_i odData osData heq
      split at hr
      · rw [extractFromTables] at heq
        split at heq
        · injection heq with h1 h2
          injection h1 with h1
          injection h2 with h2
          simp only [List.mem_cons, List.mem_singleton, List.not_mem_nil, or_false] at hr
          rcases hr with hr | hr <;> subst hr
          · exact h1 ▸ finalizeEyeRec_guaranteed _ "OD" pid age k hk
          · exact h2 ▸ finalizeEyeRec_guaranteed _ "OS" pid age k hk
        · cases heq
      · exact textFallbackRecords_keys search pid age r hr k hsub
    · exact textFallbackRecords_keys search pid age r hr k hsub

/-- Witness for C2 amended on a concrete run. -/
theorem c2_amended_witness :
    (recFind ((parseModel (fun _ => none) "1" "13"
      [[[some "OD", none], [some "AL: 24,18 mm", none]]]).getD 0 []) "K1").isSome :=
  (c2_amended (fun _ => none) "1" "13"
      [[[some "OD", none], [some "AL: 24,18 mm", none]]]).1
    ((parseModel (fun _ => none) "1" "13"
      [[[some "OD", none], [some "AL: 24,18 mm", none]]]).getD 0 [])
    (by decide) "K1" (by decide)

/-! ## Claim C4: success condition of the table attempt -/

/-- C4 counterexample.  A report whose single table fills only the OD
accumulator: the OS accumulator is empty, yet the table attempt
succeeds (both options are `some`) and `parse` returns the
table-derived records — the OD record carries AL "24.18", while the
text fallback would have produced AL "" — so "either accumulator
empty implies the fallback runs" is false. -/
theorem c4_counterexample :
    (processTables [[[some "OD", none], [some "AL: 24,18 mm", none]]]).2 = [] ∧
    (extractFromTables [[[some "OD", none], [some "AL: 24,18 mm", none]]] "1" "13").1.isSome ∧
    (extractFromTables [[[some "OD", none], [some "AL: 24,18 mm", none]]] "1" "13").2.isSome ∧
    recFind ((parseModel (fun _ => none) "1" "13"
      [[[some "OD", none], [some "AL: 24,18 mm", none]]]).getD 0 []) "AL" = some "24.18" ∧
    recFind ((textFallbackRecords (fun _ => none) "1" "13").getD 0 []) "AL" = some "" :=
  ⟨by decide, by decide, by decide, by decide, by decide⟩

/-- C4 amended.  The table attempt succeeds if and only if at least
one of the two accumulators is non-empty after processing all tables
(the empty one is replaced by a default record); the text fallback
runs exactly when there are no tables or both accumulators are
empty. -/
theorem c4_amended (search : String → Option String) (pid age : String)
    (tables : List Table) :
    (((extractFromTables tables pid age).1.isSome ∧
        (extractFromTables tables pid age).2.isSome) ↔
      ((processTables tables).1 ≠ [] ∨ (processTables tables).2 ≠ [])) ∧
    (tables = [] ∨ ((processTables tables).1 = [] ∧ (processTables tables).2 = []) →
      parseModel search pid age tables = textFallbackRecords search pid age) ∧
    (tables ≠ [] → ((processTables tables).1 ≠ [] ∨ (processTables tables).2 ≠ []) →
      parseModel search pid age tables =
        [finalizeEyeRec (processTables tables).1 "OD" pid age,
         finalizeEyeRec (processTables tables).2 "OS" pid age]) := by
  have hext : ((processTables tables).1 ≠ [] ∨ (processTables tables).2 ≠ []) →
      extractFromTables tables pid age =
        (some (finalizeEyeRec (processTables tables).1 "OD" pid age),
         some (finalizeEyeRec (processTables tables).2 "OS" pid age)) := by
    intro h
    rw [extractFromTables]
    rcases h with h | h
    · rw [if_pos (Or.inl (by simpa [List.isEmpty_iff] using h))]
    · rw [if_pos (Or.inr (by simpa [List.isEmpty_iff] using h))]
  have hextNone : ((processTables tables).1 = [] ∧ (processTables tables).2 = []) →
      extractFromTables tables pid age = (none, none) := by
    intro h
    rw [extractFromTables, if_neg]
    rintro (hc | hc)
    · exact hc (by simp [h.1])
    · exact hc (by simp [h.2])
  have hiff : ((extractFromTables tables pid age).1.isSome ∧
      (extractFromTables tables pid age).2.isSome) ↔
      ((processTables tables).1 ≠ [] ∨ (processTables tables).2 ≠ []) := by
    constructor
    · intro hcon
      by_cases hacc : (processTables tables).1 ≠ [] ∨ (processTables tables).2 ≠ []
      · exact hacc
      · push_neg at hacc
        rw [hextNone ⟨hacc.1, hacc.2⟩] at hcon
        exact absurd hcon.1 (by simp)
    · intro h
      rw [hext h]
      exact ⟨rfl, rfl⟩
  refine ⟨hiff, ?_, ?_⟩
  · rintro (hempty | hacc)
    · rw [parseModel, if_pos (by simp [hempty])]
    · rw [parseModel]
      split
      · rfl
      · rw [hextNone hacc]
  · intro hne hacc
    rw [parseModel, if_neg (by simpa [List.isEmpty_iff] using hne), hext hacc]
    have h1 : ¬ (finalizeEyeRec (processTables tables).1 "OD" pid age).isEmpty = true := by
      simpa [List.isEmpty_iff] using finalizeEyeRec_ne_nil (processTables tables).1 "OD" pid age
    have h2 : ¬ (finalizeEyeRec (processTables tables).2 "OS" pid age).isEmpty = true := by
      simpa [List.isEmpty_iff] using finalizeEyeRec_ne_nil (processTables tables).2 "OS" pid age
    show (if ¬ (finalizeEyeRec (processTables tables).1 "OD" pid age).isEmpty = true ∧
        ¬ (finalizeEyeRec (processTables tables).2 "OS" pid age).isEmpty = true then
        [finalizeEyeRec (processTables tables).1 "OD" pid age,
         finalizeEyeRec (processTables tables).2 "OS" pid age]
      else textFallbackRecords search pid age) = _
    rw [if_pos ⟨h1, h2⟩]

/-- Witness for C4 amended: a run where only the OD accumulator is
non-empty still returns the table-derived records. -/
theorem c4_amended_witness :
    parseModel (fun _ => none) "1" "13" [[[some "OD", none], [some "AL: 24,18 mm", none]]] =
      [finalizeEyeRec (processTables [[[some "OD", none], [some "AL: 24,18 mm", none]]]).1
        "OD" "1" "13",
       finalizeEyeRec (processTables [[[some "OD", none], [some "AL: 24,18 mm", none]]]).2
        "OS" "1" "13"] :=
  (c4_amended (fun _ => none) "1" "13"
      [[[some "OD", none], [some "AL: 24,18 mm", none]]]).2.2
    (by decide) (by decide)

/-! ## Claim C3: first-writer-wins in the measurement extraction -/

/-- A fold preserves existing bindings if every step does. -/
theorem foldl_preserves {α : Type} (step : Rec × Rec → α → Rec × Rec) (l : List α)
    (hstep : ∀ acc x k v,
      (recFind acc.1 k = some v → recFind (step acc x).1 k = some v) ∧
      (recFind acc.2 k = some v → recFind (step acc x).2 k = some v)) :
    ∀ acc k v,
      (recFind acc.1 k = some v → recFind (l.foldl step acc).1 k = some v) ∧
      (recFind acc.2 k = some v → recFind (l.foldl step acc).2 k = some v) := by
  induction l with
  | nil => exact fun acc k v => ⟨id, id⟩
  | cons x rest ih =>
    intro acc k v
    rw [List.foldl_cons]
    exact ⟨fun hf => (ih (step acc x) k v).1 ((hstep acc x k v).1 hf),
           fun hf => (ih (step acc x) k v).2 ((hstep acc x k v).2 hf)⟩

/-- A guarded overwrite (`if k not in d` before `d[k] = v`) preserves
existing bindings. -/
theorem recFind_recSet_preserve_of_not_contains (r : Rec) (k k' v v' : String)
    (hf : recFind r k = some v) (hc : ¬ recContains r k' = true) :
    recFind (recSet r k' v') k = some v := by
  have hkk : k' ≠ k := by
    intro heq
    subst heq
    rw [recContains_eq_isSome, hf] at hc
    exact hc rfl
  rw [recFind_recSet_ne r k k' v' hkk, hf]

theorem p1Dispatch_preserves (odCol osCol colIdx : Nat) (excel val : String)
    (acc : Rec × Rec) (k v : String) :
    (recFind acc.1 k = some v →
      recFind (p1Dispatch odCol osCol colIdx excel val acc).1 k = some v) ∧
    (recFind acc.2 k = some v →
      recFind (p1Dispatch odCol osCol colIdx excel val acc).2 k = some v) := by
  rw [p1Dispatch]
  split_ifs <;>
    first
      | exact ⟨fun hf => recFind_recSetIfAbsent_preserve _ _ _ _ _ hf, fun hf => hf⟩
      | exact ⟨fun hf => hf, fun hf => recFind_recSetIfAbsent_preserve _ _ _ _ _ hf⟩
      | exact ⟨fun hf => hf, fun hf => hf⟩

theorem pattern1Row_preserves (odCol osCol : Nat) (row : Row) (acc : Rec × Rec)
    (k v : String) :
    (recFind acc.1 k = some v → recFind (pattern1Row odCol osCol row acc).1 k = some v) ∧
    (recFind acc.2 k = some v → recFind (pattern1Row odCol osCol row acc).2 k = some v) := by
  rw [pattern1Row]
  apply foldl_preserves
  intro acc2 ic k2 v2
  split
  · exact ⟨id, id⟩
  · apply foldl_preserves
    intro acc3 lp k3 v3
    rw [pattern1LabelStep]
    split
    · split
      · exact p1Dispatch_preserves _ _ _ _ _ acc3 k3 v3
      · exact ⟨id, id⟩
    · exact ⟨id, id⟩

theorem pattern2Write_preserves (colIdx : Nat) (excel val : String) (acc : Rec × Rec)
    (k v : String) :
    (recFind acc.1 k = some v → recFind (pattern2Write colIdx excel val acc).1 k = some v) ∧
    (recFind acc.2 k = some v → recFind (pattern2Write colIdx excel val acc).2 k = some v) := by
  rw [pattern2Write]
  split_ifs <;>
    first
      | exact ⟨fun hf => recFind_recSetIfAbsent_preserve _ _ _ _ _ hf, fun hf => hf⟩
      | exact ⟨fun hf => hf, fun hf => recFind_recSetIfAbsent_preserve _ _ _ _ _ hf⟩
      | exact ⟨fun hf => hf, fun hf => hf⟩

theorem pattern2Row_preserves (row : Row) (acc : Rec × Rec) (k v : String) :
    (recFind acc.1 k = some v → recFind (pattern2Row row acc).1 k = some v) ∧
    (recFind acc.2 k = some v → recFind (pattern2Row row acc).2 k = some v) := by
  rw [pattern2Row]
  apply foldl_preserves
  intro acc2 ic k2 v2
  split
  · exact ⟨id, id⟩
  · split
    · rw [pattern2Cell]
      split
      · apply foldl_preserves
        intro acc3 lp k3 v3
        rw [pattern2LabelStep]
        split
        · exact pattern2Write_preserves _ _ _ acc3 k3 v3
        · exact ⟨id, id⟩
      · exact ⟨id, id⟩
    · exact ⟨id, id⟩

theorem pattern3OdLabelStep_preserves (cellText ctU : String) (acc : Rec × Rec)
    (lp : String × String) (k v : String) :
    (recFind acc.1 k = some v →
      recFind (pattern3OdLabelStep cellText ctU acc lp).1 k = some v) ∧
    (recFind acc.2 k = some v →
      recFind (pattern3OdLabelStep cellText ctU acc lp).2 k = some v) := by
  rw [pattern3OdLabelStep]
  split
  · rename_i hcond
    split
    · exact ⟨fun hf => recFind_recSet_preserve_of_not_contains _ _ _ _ _ hf hcond.2,
        fun hf => hf⟩
    · exact ⟨id, id⟩
  · exact ⟨id, id⟩

theorem pattern3OsLabelStep_preserves (cellText ctU : String) (acc : Rec × Rec)
    (lp : String × String) (k v : String) :
    (recFind acc.1 k = some v →
      recFind (pattern3OsLabelStep cellText ctU acc lp).1 k = some v) ∧
    (recFind acc.2 k = some v →
      recFind (pattern3OsLabelStep cellText ctU acc lp).2 k = some v) := by
  rw [pattern3OsLabelStep]
  split
  · rename_i hcond
    split
    · exact ⟨fun hf => hf,
        fun hf => recFind_recSet_preserve_of_not_contains _ _ _ _ _ hf hcond.2⟩
    · exact ⟨id, id⟩
  · exact ⟨id, id⟩

theorem pattern3OdAxe_preserves (cellText : String) (row : Row) (colIdx : Nat)
    (acc : Rec × Rec) (k v : String) :
    (recFind acc.1 k = some v → recFind (pattern3OdAxe cellText row colIdx acc).1 k = some v) ∧
    (recFind acc.2 k = some v → recFind (pattern3OdAxe cellText row colIdx acc).2 k = some v) := by
  rw [pattern3OdAxe]
  split
  · rename_i hcond
    split
    · exact ⟨fun hf => recFind_recSet_preserve_of_not_contains _ _ _ _ _ hf hcond.2,
        fun hf => hf⟩
    · exact ⟨id, id⟩
  · exact ⟨id, id⟩

theorem pattern3OsAxe_preserves (cellText : String) (row : Row) (colIdx : Nat)
    (acc : Rec × Rec) (k v : String) :
    (recFind acc.1 k = some v → recFind (pattern3OsAxe cellText row colIdx acc).1 k = some v) ∧
    (recFind acc.2 k = some v → recFind (pattern3OsAxe cellText row colIdx acc).2 k = some v) := by
  rw [pattern3OsAxe]
  split
  · rename_i hcond
    split
    · exact ⟨fun hf => hf,
        fun hf => recFind_recSet_preserve_of_not_contains _ _ _ _ _ hf hcond.2⟩
    · exact ⟨id, id⟩
  · exact ⟨id, id⟩

theorem pattern3Row_preserves (row : Row) (acc : Rec × Rec) (k v : String) :
    (recFind acc.1 k = some v → recFind (pattern3Row row acc).1 k = some v) ∧
    (recFind acc.2 k = some v → recFind (pattern3Row row acc).2 k = some v) := by
  rw [pattern3Row]
  apply foldl_preserves
  intro acc2 colIdx k2 v2
  split
  · split
    · constructor
      · intro hf
        exact (pattern3OdAxe_preserves _ row colIdx _ k2 v2).1
          ((foldl_preserves _ labelList
            (fun a lp k3 v3 => pattern3OdLabelStep_preserves _ _ a lp k3 v3) acc2 k2 v2).1 hf)
      · intro hf
        exact (pattern3OdAxe_preserves _ row colIdx _ k2 v2).2
          ((foldl_preserves _ labelList
            (fun a lp k3 v3 => pattern3OdLabelStep_preserves _ _ a lp k3 v3) acc2 k2 v2).2 hf)
    · exact ⟨id, id⟩
  · split
    · constructor
      · intro hf
        exact (pattern3OsAxe_preserves _ row colIdx _ k2 v2).1
          ((foldl_preserves _ labelList
            (fun a lp k3 v3 => pattern3OsLabelStep_preserves _ _ a lp k3 v3) acc2 k2 v2).1 hf)
      · intro hf
        exact (pattern3OsAxe_preserves _ row colIdx _ k2 v2).2
          ((foldl_preserves _ labelList
            (fun a lp k3 v3 => pattern3OsLabelStep_preserves _ _ a lp k3 v3) acc2 k2 v2).2 hf)
    · exact ⟨id, id⟩

/-- C3 amended.  Within the header-based measurement extraction
(patterns 1-3 and the axis writes), every write is set-if-absent: once
a field is set in an eye's accumulator, no later match in any row,
cell or label of the measurement loop changes it — the first written
value survives.  The per-table no-data fallback branch, however,
assigns unconditionally and does overwrite (see the counterexample). -/
theorem c3_amended (table : Table) (h odCol osCol : Nat) (od os : Rec) (k v : String) :
    (recFind od k = some v →
      recFind (measurementRows table h odCol osCol (od, os)).1 k = some v) ∧
    (recFind os k = some v →
      recFind (measurementRows table h odCol osCol (od, os)).2 k = some v) := by
  rw [measurementRows]
  exact foldl_preserves _ _
    (fun acc i k2 v2 => by
      split
      · exact ⟨id, id⟩
      · rw [measurementRow]
        constructor
        · intro hf
          exact (pattern3Row_preserves _ _ k2 v2).1
            ((pattern2Row_preserves _ _ k2 v2).1
              ((pattern1Row_preserves odCol osCol _ acc k2 v2).1 hf))
        · intro hf
          exact (pattern3Row_preserves _ _ k2 v2).2
            ((pattern2Row_preserves _ _ k2 v2).2
              ((pattern1Row_preserves odCol osCol _ acc k2 v2).2 hf)))
    (od, os) k v

/-- Witness for C3 amended: an accumulator already holding AL "24.18"
keeps it through a measurement loop whose rows offer AL "99.99". -/
theorem c3_amended_witness :
    recFind (measurementRows [[some "OD"], [some "AL: 99,99 mm"]] 0 0 4
      ([("AL", "24.18")], [])).1 "AL" = some "24.18" :=
  (c3_amended [[some "OD"], [some "AL: 99,99 mm"]] 0 0 4
    [("AL", "24.18")] [] "AL" "24.18").1 (by decide)

/-- C3 counterexample.  In the per-table fallback branch the writes
are unconditional: on a table whose two rows both match AL for OD, the
first row sets AL to "24.18", and processing the full table leaves
"25.00" — the later match overwrote the first written value, so the
claim's "set-if-absent throughout, including the fallback branch" is
false. -/
theorem c3_counterexample :
    recFind (fallbackRow [[some "AL OD", some "24.18"], [some "AL OD", some "25.00"]] 0
      [some "AL OD", some "24.18"] ([], [])).1 "AL" = some "24.18" ∧
    recFind (processTables [[[some "AL OD", some "24.18"], [some "AL OD", some "25.00"]]]).1
      "AL" = some "25.00" ∧
    ("25.00" : String) ≠ "24.18" :=
  ⟨by decide, by decide, by decide⟩

/-! ## Claim C9: the measurement-row window -/

/-- Rows at or beyond `header + 20` never influence the measurement
loop: the loop result on a table equals the result on the table
truncated to its first `header + 20` rows. -/
theorem measurementRows_congr_aux (odCol osCol : Nat) (t1 t2 : Table) (l : List Nat)
    (acc : Rec × Rec) (hread : ∀ i ∈ l, t1.getD i [] = t2.getD i []) :
    l.foldl (fun acc i =>
      if (t1.getD i []).isEmpty then acc
      else measurementRow odCol osCol (t1.getD i []) acc) acc =
    l.foldl (fun acc i =>
      if (t2.getD i []).isEmpty then acc
      else measurementRow odCol osCol (t2.getD i []) acc) acc := by
  induction l generalizing acc with
  | nil => rfl
  | cons i rest ih =>
    rw [List.foldl_cons, List.foldl_cons, hread i (by simp)]
    exact ih _ (fun j hj => hread j (by simp [hj]))

/-- C9 amended.  The measurement loop scans exactly the rows with
indices `header + 1` through `header + 19` — 19 rows, not 20: its
result is unchanged when every row from index `header + 20` on is
discarded.  (The no-data fallback branch, by contrast, scans the whole
table with no window.) -/
theorem c9_amended (table : Table) (h odCol osCol : Nat) (acc : Rec × Rec) :
    measurementRows table h odCol osCol acc =
      measurementRows (table.take (h + 20)) h odCol osCol acc := by
  rw [measurementRows, measurementRows]
  have hlen : min (h + 20) (table.take (h + 20)).length - (h + 1) =
      min (h + 20) table.length - (h + 1) := by
    rw [List.length_take]
    omega
  rw [hlen]
  apply measurementRows_congr_aux
  intro i hi
  rw [List.mem_range'_1] at hi
  have hlt : i < h + 20 := by omega
  rw [List.getD_eq_getElem?_getD, List.getD_eq_getElem?_getD, List.getElem?_take,
    if_pos hlt]

/-- C9 counterexample.  A table with its header at row 0, a harvested
LT at row 1, and an extractable AL measurement at row 20 — inside the
claimed 20-row window: the AL value is never written, while the same
measurement placed at row 19 is; the window is 19 rows, and row
`header + 20` is not scanned. -/
theorem c9_counterexample :
    extractValueFromText "AL: 24,18 mm" "AL" = "24.18" ∧
    recFind (processTables [[[some "OD", none, none, none, none], [some "LT: 4,50 mm"]] ++
      List.replicate 18 ([] : Row) ++ [[some "AL: 24,18 mm"]]]).1 "AL" = none ∧
    recFind (processTables [[[some "OD", none, none, none, none], [some "LT: 4,50 mm"]] ++
      List.replicate 17 ([] : Row) ++ [[some "AL: 24,18 mm"]]]).1 "AL" = some "24.18" :=
  ⟨by decide, by decide, by decide⟩

end OphtaFlow
